import Mathlib

/-!
Verification of the stock-sentiment-analysis pipeline.

This file gives a shallow embedding of the core pipeline modules
(sentiment.py, cache.py, http.py, google_rss.py, types.py of the
stock_sentiment package) and proves the specification claims about them.

Modelling conventions:
- Python floats are modelled as exact rationals; the real-valued recency
  computation of the aggregation engine is modelled over the reals.
- Datetimes are modelled as UTC timestamps (integer seconds); formatting
  and parsing codecs from the standard library are passed in as explicit
  parameters where their round-trip behaviour matters.
- JSON values are a dedicated inductive type; decoding of byte strings is
  modelled by carrying the decoded value alongside the raw text.
- Network transport is modelled by an oracle assigning a response to each
  attempt number.
-/

namespace StockSentiment

/-- Python str.strip on a character list: drop leading and trailing whitespace. -/
def stripChars (cs : List Char) : List Char :=
  ((cs.dropWhile Char.isWhitespace).reverse.dropWhile Char.isWhitespace).reverse

/-- Python str.strip. -/
def pyStrip (s : String) : String := String.mk (stripChars s.data)

/-- Python str.rstrip with no argument: drop trailing whitespace. -/
def pyRstrip (s : String) : String :=
  String.mk (s.data.reverse.dropWhile Char.isWhitespace).reverse

/-- Python str.split with no argument: split on whitespace runs, dropping empty pieces.
The first list is the remaining input, the second accumulates the current token reversed. -/
def wsTokensAux : List Char → List Char → List String
  | [], cur => if cur.isEmpty then [] else [String.mk cur.reverse]
  | c :: rest, cur =>
    if c.isWhitespace then
      if cur.isEmpty then wsTokensAux rest [] else String.mk cur.reverse :: wsTokensAux rest []
    else wsTokensAux rest (c :: cur)

/-- Python text.split() with no separator. -/
def pySplitWs (s : String) : List String := wsTokensAux s.data []

/-- Python " ".join(text.split()): collapse whitespace runs to single spaces and trim. -/
def pyCollapseWs (s : String) : String := String.intercalate " " (pySplitWs s)

/-- sentiment._truncate: collapse whitespace, cap at limit characters, append an ellipsis. -/
def truncate (text : String) (limit : Nat) : String :=
  let cleaned := pyCollapseWs text
  if cleaned.data.length ≤ limit then cleaned
  else pyRstrip (String.mk (cleaned.data.take (limit - 1))) ++ "…"

/-- sentiment._clamp over the rationals. -/
def clamp (value low high : ℚ) : ℚ := max low (min high value)

/-- sentiment._clamp over the reals (as used by the aggregation engine). -/
def clampR (value low high : ℝ) : ℝ := max low (min high value)

/-- types.SentimentLabel. -/
inductive SentimentLabel
  | positive
  | negative
  | neutral
deriving DecidableEq, Repr

/-- types.Signal. -/
inductive Signal
  | buy
  | sell
  | hold
deriving DecidableEq, Repr

/-- The string form of a label, as serialized into cache entries. -/
def SentimentLabel.toStr : SentimentLabel → String
  | .positive => "positive"
  | .negative => "negative"
  | .neutral => "neutral"

/-- Membership test of a decoded label string in the valid label set. -/
def labelOfString (s : String) : Option SentimentLabel :=
  if s = "positive" then some .positive
  else if s = "negative" then some .negative
  else if s = "neutral" then some .neutral
  else none

/-- JSON values as produced by json.loads. Numbers are exact rationals; the
nonfinite constructor stands for the IEEE infinities and NaN that the Python
json module accepts, so the isfinite checks in the source remain meaningful. -/
inductive Json
  | null
  | bool (b : Bool)
  | num (q : ℚ)
  | nonfinite
  | str (s : String)
  | arr (elems : List Json)
  | obj (fields : List (String × Json))
deriving BEq

/-- Python dict lookup on decoded object fields: a later duplicate key wins. -/
def jsonGet (fields : List (String × Json)) (k : String) : Option Json :=
  (fields.reverse.find? (fun kv => kv.1 == k)).map (fun kv => kv.2)

/-- Result of Python float(x) on a decoded JSON value: none when a TypeError or
ValueError is raised, some none for a non-finite float, some (some q) for a
finite value. Numeric strings are not modelled: the pipeline only stores
genuine JSON numbers in the fields this is applied to. -/
def pyFloatOf : Json → Option (Option ℚ)
  | .num q => some (some q)
  | .nonfinite => some none
  | .bool b => some (some (if b then 1 else 0))
  | _ => none

/-- Python isinstance(x, (int, float)) on a decoded JSON value (bools count, as in Python). -/
def isPyNumber : Json → Bool
  | .num _ => true
  | .nonfinite => true
  | .bool _ => true
  | _ => false

/-- types.ArticleSentiment. -/
structure ArticleSentiment where
  article_id : String
  label : SentimentLabel
  score : ℚ
  confidence : ℚ
  reason : Option String := none
deriving DecidableEq, Repr

/-- types.NewsArticle (published_at as an optional UTC timestamp in seconds). -/
structure NewsArticle where
  article_id : String
  title : String
  description : String
  url : Option String := none
  source : Option String := none
  published_at : Option ℤ := none
deriving DecidableEq, Repr

/-- types.ArticleSentiment.to_dict. -/
def ArticleSentiment.toDict (r : ArticleSentiment) (include_reason : Bool := true) : Json :=
  .obj ([("article_id", .str r.article_id), ("label", .str r.label.toStr),
         ("score", .num r.score), ("confidence", .num r.confidence)] ++
        (if include_reason then
          [("reason", match r.reason with | some s => Json.str s | none => Json.null)]
        else []))

/-- Association-list update with Python dict semantics (a fresh binding shadows). -/
def assocSet {α : Type} (m : List (String × α)) (k : String) (v : α) : List (String × α) :=
  (k, v) :: m

/-- Association-list lookup returning the most recent binding. -/
def assocGet {α : Type} (m : List (String × α)) (k : String) : Option α :=
  (m.find? (fun kv => kv.1 == k)).map (fun kv => kv.2)

/-- Validation and normalization of one entry of the model's decoded results
array: the body of the loop over raw_results in
sentiment.analyze_articles_with_openai (lines 177 to 216). Returns the
key-value pair stored into by_id, or none when the entry is skipped. -/
def validate_openai_item (include_reasons : Bool) (item : Json) : Option (String × ArticleSentiment) :=
  match item with
  | .obj kvs =>
    match jsonGet kvs "article_id" with
    | some (.str aid) =>
      if aid = "" then none
      else
        match jsonGet kvs "label" with
        | some (.str lbl) =>
          match labelOfString lbl with
          | some normalized_label =>
            match jsonGet kvs "score", jsonGet kvs "confidence" with
            | some sj, some cj =>
              if isPyNumber sj && isPyNumber cj then
                match pyFloatOf sj, pyFloatOf cj with
                | some (some s), some (some c) =>
                  let clamped_score := clamp s (-1) 1
                  let normalized_conf := clamp c 0 1
                  let normalized_score : ℚ :=
                    match normalized_label with
                    | .neutral => 0
                    | .positive => |clamped_score|
                    | .negative => -|clamped_score|
                  let normalized_reason : Option String :=
                    if include_reasons then
                      match jsonGet kvs "reason" with
                      | some (.str rs) => some (truncate rs 140)
                      | _ => none
                    else none
                  some (aid, ⟨aid, normalized_label, normalized_score, normalized_conf, normalized_reason⟩)
                | _, _ => none
              else none
            | _, _ => none
          | none => none
        | _ => none
    | _ => none
  | _ => none

/-- The by_id dictionary built from the decoded results array in
sentiment.analyze_articles_with_openai. -/
def openai_results_by_id (include_reasons : Bool) (raw_results : List Json) :
    List (String × ArticleSentiment) :=
  raw_results.foldl (fun by_id item =>
    match validate_openai_item include_reasons item with
    | some (aid, s) => assocSet by_id aid s
    | none => by_id) []

/-- sentiment.analyze_articles_with_openai after the transport call and JSON
decoding: consumes the decoded results array. The credential check, prompt
assembly and the ConfigurationError and ParseError paths live upstream of the
part modelled here. -/
def analyze_articles_with_openai (raw_results : List Json) (articles : List NewsArticle)
    (include_reasons : Bool) : List ArticleSentiment :=
  let by_id := openai_results_by_id include_reasons raw_results
  articles.map (fun a =>
    match assocGet by_id a.article_id with
    | none =>
      ⟨a.article_id, .neutral, 0, 0,
       if include_reasons then some "No classification returned" else none⟩
    | some existing => existing)

/-- sentiment.analyze_with_cache.parse_cached: rebuild an ArticleSentiment from
a raw cache value. -/
def parse_cached (article_id : String) (value : Json) (require_reason : Bool) :
    Option ArticleSentiment :=
  match value with
  | .obj kvs =>
    match jsonGet kvs "article_id" with
    | some (.str s) =>
      if s = article_id then
        match jsonGet kvs "label" with
        | some (.str lbl) =>
          match labelOfString lbl with
          | some normalized_label =>
            match (jsonGet kvs "score").bind pyFloatOf,
                  (jsonGet kvs "confidence").bind pyFloatOf with
            | some (some score), some (some confidence) =>
              let clamped_score := clamp score (-1) 1
              let normalized_confidence := clamp confidence 0 1
              let normalized_score : ℚ :=
                match normalized_label with
                | .neutral => 0
                | .positive => |clamped_score|
                | .negative => -|clamped_score|
              let reasonOk : Option String :=
                match jsonGet kvs "reason" with
                | some (.str rs) => if pyStrip rs = "" then none else some rs
                | _ => none
              if require_reason && reasonOk.isNone then none
              else
                some ⟨article_id, normalized_label, normalized_score, normalized_confidence,
                      reasonOk.map (fun rs => truncate (pyStrip rs) 140)⟩
            | _, _ => none
          | none => none
        | _ => none
      else none
    | _ => none
  | _ => none

/-- The data-model invariant on ArticleSentiment: the sign of the score
matches the label, the score lies in the unit interval around zero, and the
confidence lies in the unit interval. -/
def sentimentInvariant (r : ArticleSentiment) : Prop :=
  (r.label = .neutral → r.score = 0) ∧
  (r.label = .positive → 0 ≤ r.score) ∧
  (r.label = .negative → r.score ≤ 0) ∧
  -1 ≤ r.score ∧ r.score ≤ 1 ∧ 0 ≤ r.confidence ∧ r.confidence ≤ 1

theorem le_clamp (v low high : ℚ) : low ≤ clamp v low high :=
  le_max_left _ _

theorem clamp_le (v : ℚ) {low high : ℚ} (h : low ≤ high) : clamp v low high ≤ high :=
  max_le h (min_le_left _ _)

theorem abs_clamp_unit_le_one (s : ℚ) : |clamp s (-1) 1| ≤ 1 :=
  abs_le.mpr ⟨le_clamp s (-1) 1, clamp_le s (by norm_num)⟩

theorem neg_one_le_abs_clamp (s : ℚ) : (-1 : ℚ) ≤ |clamp s (-1) 1| :=
  le_trans (by norm_num) (abs_nonneg _)

theorem neg_abs_clamp_le_one (s : ℚ) : -|clamp s (-1) 1| ≤ 1 :=
  le_trans (neg_nonpos.mpr (abs_nonneg _)) (by norm_num)

theorem neg_one_le_neg_abs_clamp (s : ℚ) : (-1 : ℚ) ≤ -|clamp s (-1) 1| :=
  neg_le.mp (by simpa using abs_clamp_unit_le_one s)

theorem inv_neutral (a : String) (c : ℚ) (R : Option String) :
    sentimentInvariant ⟨a, .neutral, 0, clamp c 0 1, R⟩ :=
  ⟨fun _ => rfl, fun hl => SentimentLabel.noConfusion hl, fun hl => SentimentLabel.noConfusion hl,
   by norm_num, by norm_num, le_clamp _ 0 1, clamp_le _ (by norm_num)⟩

theorem inv_positive (a : String) (q c : ℚ) (R : Option String) :
    sentimentInvariant ⟨a, .positive, |clamp q (-1) 1|, clamp c 0 1, R⟩ :=
  ⟨fun hl => SentimentLabel.noConfusion hl, fun _ => abs_nonneg _,
   fun hl => SentimentLabel.noConfusion hl, neg_one_le_abs_clamp _, abs_clamp_unit_le_one _,
   le_clamp _ 0 1, clamp_le _ (by norm_num)⟩

theorem inv_negative (a : String) (q c : ℚ) (R : Option String) :
    sentimentInvariant ⟨a, .negative, -|clamp q (-1) 1|, clamp c 0 1, R⟩ :=
  ⟨fun hl => SentimentLabel.noConfusion hl, fun hl => SentimentLabel.noConfusion hl,
   fun _ => neg_nonpos.mpr (abs_nonneg _), neg_one_le_neg_abs_clamp _, neg_abs_clamp_le_one _,
   le_clamp _ 0 1, clamp_le _ (by norm_num)⟩

theorem validate_openai_item_invariant (ir : Bool) (item : Json) (aid : String)
    (r : ArticleSentiment) (h : validate_openai_item ir item = some (aid, r)) :
    sentimentInvariant r := by
  simp only [validate_openai_item] at h
  repeat' split at h
  all_goals try exact Option.noConfusion h
  all_goals
    injection h with h2
  all_goals
    injection h2 with h3 h4
  all_goals subst h4
  all_goals first
    | exact inv_neutral _ _ _
    | exact inv_positive _ _ _ _
    | exact inv_negative _ _ _ _

theorem parse_cached_invariant (aid : String) (value : Json) (rr : Bool)
    (r : ArticleSentiment) (h : parse_cached aid value rr = some r) :
    sentimentInvariant r := by
  simp only [parse_cached] at h
  repeat' split at h
  all_goals try exact Option.noConfusion h
  all_goals injection h with h2
  all_goals subst h2
  all_goals first
    | exact inv_neutral _ _ _
    | exact inv_positive _ _ _ _
    | exact inv_negative _ _ _ _

theorem inv_backfill (a : String) (R : Option String) :
    sentimentInvariant ⟨a, .neutral, 0, 0, R⟩ :=
  ⟨fun _ => rfl, fun hl => SentimentLabel.noConfusion hl, fun hl => SentimentLabel.noConfusion hl,
   by norm_num, by norm_num, le_refl 0, by norm_num⟩

theorem assocGet_cons {α : Type} (a k : String) (v : α) (m : List (String × α)) :
    assocGet (assocSet m a v) k = if a == k then some v else assocGet m k := by
  by_cases hak : (a == k) = true <;> simp [assocSet, assocGet, List.find?, hak]

theorem openai_fold_invariant (ir : Bool) :
    ∀ (raw : List Json) (m : List (String × ArticleSentiment)),
    (∀ k r, assocGet m k = some r → sentimentInvariant r) →
    ∀ k r, assocGet (raw.foldl (fun by_id item =>
      match validate_openai_item ir item with
      | some (aid, s) => assocSet by_id aid s
      | none => by_id) m) k = some r → sentimentInvariant r := by
  intro raw
  induction raw with
  | nil => intro m hm k r h; exact hm k r h
  | cons item rest ih =>
    intro m hm k r h
    rw [List.foldl_cons] at h
    refine ih _ ?_ k r h
    intro k2 r2 h2
    cases hv : validate_openai_item ir item with
    | none => rw [hv] at h2; exact hm k2 r2 h2
    | some p =>
      obtain ⟨aid, s⟩ := p
      rw [hv] at h2
      dsimp only at h2
      rw [assocGet_cons] at h2
      by_cases hak : (aid == k2) = true
      · rw [if_pos hak] at h2
        obtain rfl := Option.some.inj h2
        exact validate_openai_item_invariant ir item aid s hv
      · rw [if_neg hak] at h2
        exact hm k2 r2 h2

/-- A well-formed model-output entry carrying a given id, label string, score
and confidence, used to compare the two normalization paths on equal inputs. -/
def mkModelEntry (aid lbl : String) (s c : ℚ) : Json :=
  .obj [("article_id", .str aid), ("label", .str lbl), ("score", .num s), ("confidence", .num c)]

theorem analyze_articles_with_openai_invariant (raw : List Json) (articles : List NewsArticle)
    (ir : Bool) : ∀ r ∈ analyze_articles_with_openai raw articles ir, sentimentInvariant r := by
  intro r hr
  simp only [analyze_articles_with_openai] at hr
  rw [List.mem_map] at hr
  obtain ⟨a, _, rfl⟩ := hr
  cases hv : assocGet (openai_results_by_id ir raw) a.article_id with
  | none => exact inv_backfill _ _
  | some s =>
    simp only [openai_results_by_id] at hv
    exact openai_fold_invariant ir raw [] (by intro k r h; simp [assocGet] at h) _ s hv

theorem normalization_agreement (value : Json) (ir rr : Bool) (aid : String)
    (r1 r2 : ArticleSentiment)
    (h1 : validate_openai_item ir value = some (aid, r1))
    (h2 : parse_cached aid value rr = some r2) :
    r1.label = r2.label ∧ r1.score = r2.score ∧ r1.confidence = r2.confidence := by
  simp only [validate_openai_item] at h1
  repeat' split at h1
  all_goals try exact Option.noConfusion h1
  all_goals (injection h1 with h1p; injection h1p with h1a h1r; subst h1a; subst h1r)
  all_goals simp only [parse_cached, Option.some_bind, *] at h2
  all_goals repeat' split at h2
  all_goals try exact Option.noConfusion h2
  all_goals (injection h2 with h2r; subst h2r)
  all_goals exact ⟨rfl, rfl, rfl⟩

/-- C1: every ArticleSentiment produced by the fresh classification path
(analyze_articles_with_openai, backfill entries included) or reconstructed
from a cache entry (parse_cached) satisfies the invariant: a neutral label
forces score 0, a positive label a nonnegative score, a negative label a
nonpositive score, the score lies in the interval from -1 to 1 and the
confidence in the interval from 0 to 1; and whenever both construction paths
accept the same decoded value they agree on label, score and confidence,
i.e. they apply the identical clamp-then-sign normalization. -/
theorem C1_sentiment_invariant_both_paths :
    (∀ (raw : List Json) (articles : List NewsArticle) (ir : Bool) (r : ArticleSentiment),
      r ∈ analyze_articles_with_openai raw articles ir → sentimentInvariant r) ∧
    (∀ (aid : String) (value : Json) (rr : Bool) (r : ArticleSentiment),
      parse_cached aid value rr = some r → sentimentInvariant r) ∧
    (∀ (value : Json) (ir rr : Bool) (aid : String) (r1 r2 : ArticleSentiment),
      validate_openai_item ir value = some (aid, r1) → parse_cached aid value rr = some r2 →
      r1.label = r2.label ∧ r1.score = r2.score ∧ r1.confidence = r2.confidence) :=
  ⟨fun raw articles ir r h => analyze_articles_with_openai_invariant raw articles ir r h,
   fun aid value rr r h => parse_cached_invariant aid value rr r h,
   fun value ir rr aid r1 r2 h1 h2 => normalization_agreement value ir rr aid r1 r2 h1 h2⟩

theorem C1_sentiment_invariant_both_paths_witness :
    sentimentInvariant ⟨"a1", SentimentLabel.neutral, 0, 1, none⟩ ∧
    (SentimentLabel.positive = SentimentLabel.positive ∧ (1 : ℚ) = 1 ∧ (1 : ℚ) = 1) :=
  ⟨C1_sentiment_invariant_both_paths.2.1 "a1" (mkModelEntry "a1" "neutral" 0 1) false
     ⟨"a1", SentimentLabel.neutral, 0, 1, none⟩ (by decide),
   C1_sentiment_invariant_both_paths.2.2 (mkModelEntry "a1" "positive" 1 1) true false "a1"
     ⟨"a1", SentimentLabel.positive, 1, 1, none⟩ ⟨"a1", SentimentLabel.positive, 1, 1, none⟩
     (by decide) (by decide)⟩

/-- C4: analyze_articles_with_openai returns exactly one entry per input
article, and an input article whose id is absent from the validated model
output is backfilled as neutral with score 0 and confidence 0, carrying the
explanatory reason exactly when include_reasons is set. -/
theorem C4_one_result_per_article :
    ∀ (raw : List Json) (articles : List NewsArticle) (ir : Bool),
      (analyze_articles_with_openai raw articles ir).length = articles.length ∧
      ∀ (i : Nat) (a : NewsArticle), articles[i]? = some a →
        assocGet (openai_results_by_id ir raw) a.article_id = none →
        (analyze_articles_with_openai raw articles ir)[i]? =
          some ⟨a.article_id, .neutral, 0, 0,
                if ir then some "No classification returned" else none⟩ := by
  intro raw articles ir
  constructor
  · simp [analyze_articles_with_openai]
  · intro i a hi hnone
    simp only [analyze_articles_with_openai, List.getElem?_map, hi, Option.map_some']
    rw [hnone]

theorem C4_one_result_per_article_witness :
    (analyze_articles_with_openai [] [⟨"a1", "t", "d", none, none, none⟩] false).length = 1 ∧
    (analyze_articles_with_openai [] [⟨"a1", "t", "d", none, none, none⟩] false)[0]? =
      some ⟨"a1", SentimentLabel.neutral, 0, 0, none⟩ := by
  have h := C4_one_result_per_article [] [⟨"a1", "t", "d", none, none, none⟩] false
  exact ⟨h.1, h.2 0 ⟨"a1", "t", "d", none, none, none⟩ rfl rfl⟩

/-- sentiment._recency_weight. published_at is an optional UTC timestamp in
seconds and now is the current instant (sentiment._utcnow); the
naive-datetime branch is invisible here because every modelled instant is
already UTC. The real-valued power models the Python float power. -/
noncomputable def recency_weight (now : ℝ) (published_at : Option ℤ) (half_life_hours : ℝ) : ℝ :=
  match published_at with
  | none => 1
  | some t =>
    let age_seconds : ℝ := max 0 (now - (t : ℝ))
    let half_life_seconds : ℝ := max 1 (half_life_hours * 3600)
    (1/2 : ℝ) ^ (age_seconds / half_life_seconds)

/-- sentiment._label_from_score. -/
noncomputable def label_from_score (score : ℝ) (threshold : ℝ := 0.15) : SentimentLabel :=
  if threshold < score then .positive
  else if score < -threshold then .negative
  else .neutral

/-- sentiment._signal_from_score. -/
noncomputable def signal_from_score (score confidence : ℝ)
    (threshold : ℝ := 0.15) (min_confidence : ℝ := 0.55) : Signal :=
  if confidence < min_confidence then .hold
  else if threshold < score then .buy
  else if score < -threshold then .sell
  else .hold

/-- types.SentimentSummary. -/
structure SentimentSummary where
  ticker : String
  query : String
  as_of : ℝ
  score : ℝ
  label : SentimentLabel
  confidence : ℝ
  signal : Signal
  articles_analyzed : Nat
  results : List ArticleSentiment

/-- The loop of sentiment.summarize_sentiment, building the weights,
weighted_scores and recency_weights lists in order. -/
noncomputable def summarize_lists (now : ℝ) (results : List ArticleSentiment)
    (article_by_id : String → Option NewsArticle) (half_life_hours : ℝ) :
    List ℝ × List ℝ × List ℝ :=
  results.foldl (fun acc r =>
    let article := article_by_id r.article_id
    let recency := recency_weight now (article.bind NewsArticle.published_at) half_life_hours
    let weight := recency * clampR (r.confidence : ℝ) 0 1
    (acc.1 ++ [weight], acc.2.1 ++ [(r.score : ℝ) * weight], acc.2.2 ++ [recency]))
    ([], [], [])

/-- sentiment.summarize_sentiment. -/
noncomputable def summarize_sentiment (now : ℝ) (ticker query : String)
    (results : List ArticleSentiment) (article_by_id : String → Option NewsArticle)
    (half_life_hours : ℝ := 24) : SentimentSummary :=
  let lists := summarize_lists now results article_by_id half_life_hours
  let total_weight := lists.1.sum
  let score0 : ℝ := if 0 < total_weight then lists.2.1.sum / total_weight else 0
  let score := clampR score0 (-1) 1
  let total_recency := lists.2.2.sum
  let confidence0 : ℝ := if 0 < total_recency then total_weight / total_recency else 0
  let confidence := clampR confidence0 0 1
  { ticker := ticker, query := query, as_of := now, score := score,
    label := label_from_score score, confidence := confidence,
    signal := signal_from_score score confidence,
    articles_analyzed := results.length, results := results }

/-- The per-article recency weight as the specification formula states it,
amended with the floors the code applies: the age is floored at zero and the
half-life denominator at one second. -/
noncomputable def specRecency (now : ℝ) (article_by_id : String → Option NewsArticle)
    (half_life_hours : ℝ) (r : ArticleSentiment) : ℝ :=
  match (article_by_id r.article_id).bind NewsArticle.published_at with
  | none => 1
  | some t => (1/2 : ℝ) ^ (max 0 (now - (t : ℝ)) / max 1 (half_life_hours * 3600))

/-- The per-article weight of the specification: recency times clamped confidence. -/
noncomputable def specWeight (now : ℝ) (article_by_id : String → Option NewsArticle)
    (half_life_hours : ℝ) (r : ArticleSentiment) : ℝ :=
  specRecency now article_by_id half_life_hours r * clampR (r.confidence : ℝ) 0 1

/-- The unfloored recency weight exactly as the claim words it. -/
noncomputable def claimRecency (now : ℝ) (article_by_id : String → Option NewsArticle)
    (half_life_hours : ℝ) (r : ArticleSentiment) : ℝ :=
  match (article_by_id r.article_id).bind NewsArticle.published_at with
  | none => 1
  | some t => (1/2 : ℝ) ^ ((now - (t : ℝ)) / (half_life_hours * 3600))

/-- The unfloored per-article weight exactly as the claim words it. -/
noncomputable def claimWeight (now : ℝ) (article_by_id : String → Option NewsArticle)
    (half_life_hours : ℝ) (r : ArticleSentiment) : ℝ :=
  claimRecency now article_by_id half_life_hours r * clampR (r.confidence : ℝ) 0 1

theorem recency_weight_eq_spec (now : ℝ) (byId : String → Option NewsArticle) (hl : ℝ)
    (r : ArticleSentiment) :
    recency_weight now ((byId r.article_id).bind NewsArticle.published_at) hl =
      specRecency now byId hl r := by
  cases h : (byId r.article_id).bind NewsArticle.published_at <;>
    simp [recency_weight, specRecency, h]

theorem summarize_lists_eq (now : ℝ) (byId : String → Option NewsArticle) (hl : ℝ) :
    ∀ (results : List ArticleSentiment) (acc : List ℝ × List ℝ × List ℝ),
      (results.foldl (fun acc r =>
        let article := byId r.article_id
        let recency := recency_weight now (article.bind NewsArticle.published_at) hl
        let weight := recency * clampR (r.confidence : ℝ) 0 1
        (acc.1 ++ [weight], acc.2.1 ++ [(r.score : ℝ) * weight], acc.2.2 ++ [recency])) acc) =
      (acc.1 ++ results.map (specWeight now byId hl),
       acc.2.1 ++ results.map (fun r => (r.score : ℝ) * specWeight now byId hl r),
       acc.2.2 ++ results.map (specRecency now byId hl)) := by
  intro results
  induction results with
  | nil => intro acc; simp
  | cons r rest ih =>
    intro acc
    rw [List.foldl_cons, ih]
    simp [specWeight, recency_weight_eq_spec, List.append_assoc]

/-- C2 (amended): for all inputs, summarize_sentiment weighs each result by
the amended specification weight (recency times clamped confidence, with the
age floored at zero and the half-life denominator floored at one second), and
its score and confidence fields equal the specification's quotient formulas
with their zero-denominator defaults, clamped into range. -/
theorem C2_weighted_summary_amended (now : ℝ) (ticker query : String)
    (results : List ArticleSentiment) (byId : String → Option NewsArticle) (hl : ℝ) :
    (summarize_lists now results byId hl).1 = results.map (specWeight now byId hl) ∧
    (summarize_lists now results byId hl).2.2 = results.map (specRecency now byId hl) ∧
    (summarize_sentiment now ticker query results byId hl).score =
      clampR (if 0 < (results.map (specWeight now byId hl)).sum then
          (results.map (fun r => (r.score : ℝ) * specWeight now byId hl r)).sum /
            (results.map (specWeight now byId hl)).sum
        else 0) (-1) 1 ∧
    (summarize_sentiment now ticker query results byId hl).confidence =
      clampR (if 0 < (results.map (specRecency now byId hl)).sum then
          (results.map (specWeight now byId hl)).sum /
            (results.map (specRecency now byId hl)).sum
        else 0) 0 1 := by
  have hlists : summarize_lists now results byId hl =
      (results.map (specWeight now byId hl),
       results.map (fun r => (r.score : ℝ) * specWeight now byId hl r),
       results.map (specRecency now byId hl)) := by
    rw [summarize_lists, summarize_lists_eq]
    simp
  refine ⟨by rw [hlists], by rw [hlists], ?_, ?_⟩ <;>
    simp only [summarize_sentiment, hlists]

/-- Concrete results for the C2 counterexample: one undated neutral article
with full confidence, one dated positive article with full confidence. -/
def cexResults : List ArticleSentiment :=
  [⟨"a1", .neutral, 0, 1, none⟩, ⟨"a2", .positive, 1, 1, none⟩]

/-- The dated article of the C2 counterexample, published one second before
the aggregation instant. -/
def cexArticle : NewsArticle := ⟨"a2", "t", "d", none, none, some 3599⟩

/-- The article map of the C2 counterexample. -/
def cexById : String → Option NewsArticle :=
  fun aid => if aid = "a2" then some cexArticle else none

theorem cex_spec_w1 : specWeight 3600 cexById (1/7200) ⟨"a1", .neutral, 0, 1, none⟩ = 1 := by
  simp [specWeight, specRecency, cexById, clampR, max_def, min_def]

theorem cex_spec_w2 : specWeight 3600 cexById (1/7200) ⟨"a2", .positive, 1, 1, none⟩ = 1/2 := by
  have e : max (0:ℝ) (3600 - ((3599 : ℤ) : ℝ)) / max 1 ((1/7200 : ℝ) * 3600) = 1 := by
    push_cast
    norm_num [max_def]
  simp only [specWeight, specRecency, cexById, cexArticle, eq_self_iff_true, if_true,
    Option.some_bind]
  rw [e, Real.rpow_one]
  norm_num [clampR, max_def, min_def]

theorem cex_claim_w1 : claimWeight 3600 cexById (1/7200) ⟨"a1", .neutral, 0, 1, none⟩ = 1 := by
  simp [claimWeight, claimRecency, cexById, clampR, max_def, min_def]

theorem cex_claim_w2 : claimWeight 3600 cexById (1/7200) ⟨"a2", .positive, 1, 1, none⟩ = 1/4 := by
  have e : ((3600 : ℝ) - ((3599 : ℤ) : ℝ)) / ((1/7200 : ℝ) * 3600) = 2 := by
    push_cast
    norm_num
  simp only [claimWeight, claimRecency, cexById, cexArticle, eq_self_iff_true, if_true,
    Option.some_bind]
  rw [e, Real.rpow_two]
  norm_num [clampR, max_def, min_def]

/-- C2 counterexample: with half_life_hours equal to 1/7200 (a half-second
half-life, below the code's one-second floor) and an article published one
second before the aggregation instant, the summary score computed by the code
is 1/3, while the claim's unfloored weight formula yields 1/5: the claim as
stated is false. -/
theorem C2_claim_counterexample :
    (summarize_sentiment 3600 "T" "q" cexResults cexById (1/7200)).score ≠
      clampR ((cexResults.map (fun r => (r.score : ℝ) * claimWeight 3600 cexById (1/7200) r)).sum /
              (cexResults.map (claimWeight 3600 cexById (1/7200))).sum) (-1) 1 := by
  have hlists : summarize_lists 3600 cexResults cexById (1/7200) =
      (cexResults.map (specWeight 3600 cexById (1/7200)),
       cexResults.map (fun r => (r.score : ℝ) * specWeight 3600 cexById (1/7200) r),
       cexResults.map (specRecency 3600 cexById (1/7200))) := by
    rw [summarize_lists, summarize_lists_eq]
    simp
  have hLHS : (summarize_sentiment 3600 "T" "q" cexResults cexById (1/7200)).score = 1/3 := by
    simp only [summarize_sentiment]
    rw [hlists]
    simp only [cexResults, List.map_cons, List.map_nil, List.sum_cons, List.sum_nil,
      cex_spec_w1, cex_spec_w2]
    norm_num [clampR, max_def, min_def]
  have hRHS :
      clampR ((cexResults.map (fun r => (r.score : ℝ) * claimWeight 3600 cexById (1/7200) r)).sum /
              (cexResults.map (claimWeight 3600 cexById (1/7200))).sum) (-1) 1 = 1/5 := by
    simp only [cexResults, List.map_cons, List.map_nil, List.sum_cons, List.sum_nil,
      cex_claim_w1, cex_claim_w2]
    norm_num [clampR, max_def, min_def]
  rw [hLHS, hRHS]
  norm_num

/-- sentiment.OpenAISentimentConfig, restricted to the fields that enter
cache keys (the transport fields live in the http model). -/
structure OpenAISentimentConfig where
  api_key : String
  model : String := "gpt-4o-mini"
  base_url : String := "https://api.openai.com/v1"
  temperature : ℚ := 1/5
  max_output_tokens : ℤ := 900
deriving DecidableEq, Repr

/-- Cache keys of sentiment.analyze_with_cache. The source renders these
fields into a colon-separated string (temperature via the %.6g format) that
JsonDiskCache then sha256-hashes into a file name; both encodings are
injective on the fields used here, so the key is modelled structurally. -/
inductive CacheKey
  | vkey (prompt_version base_url model : String) (temperature : ℚ)
      (max_output_tokens : ℤ) (ticker article_id : String)
  | lkey (prompt_version model ticker article_id : String)
deriving DecidableEq, Repr

/-- Python base_url.rstrip("/"). -/
def rstripSlash (s : String) : String :=
  String.mk (s.data.reverse.dropWhile (fun c => c == '/')).reverse

/-- analyze_with_cache.cache_key. -/
def cache_key (cfg : OpenAISentimentConfig) (ticker prompt_version article_id : String) : CacheKey :=
  .vkey prompt_version (rstripSlash cfg.base_url) cfg.model cfg.temperature
    cfg.max_output_tokens ticker article_id

/-- analyze_with_cache.legacy_key. -/
def legacy_key (cfg : OpenAISentimentConfig) (ticker prompt_version article_id : String) : CacheKey :=
  .lkey prompt_version cfg.model ticker article_id

def prompt_version_no_reasons : String := "openai_sentiment_v1"

def prompt_version_with_reasons : String := "openai_sentiment_v2"

/-- The key-value view of the disk cache used by the orchestrator: get after
set returns the stored value (expiry and corruption are modelled with the
cache component itself; within one orchestrator scenario entries do not
expire). A fresh binding shadows an older one for the same key. -/
def KVCache := List (CacheKey × Json)

def kvGet (cache : KVCache) (k : CacheKey) : Option Json :=
  (cache.find? (fun kv => kv.1 == k)).map (fun kv => kv.2)

def kvSet (cache : KVCache) (k : CacheKey) (v : Json) : KVCache :=
  (k, v) :: cache

/-- The candidate key list of the per-article loop in analyze_with_cache
(lines 356 to 375): each candidate carries the require_reason flag passed to
parse_cached. -/
def cache_candidates (cfg : OpenAISentimentConfig) (ticker : String) (include_reasons : Bool)
    (article_id : String) : List (CacheKey × Bool) :=
  let prompt_version :=
    if include_reasons then prompt_version_with_reasons else prompt_version_no_reasons
  [(cache_key cfg ticker prompt_version article_id, include_reasons),
   (legacy_key cfg ticker prompt_version article_id, include_reasons)] ++
  (if include_reasons then
    [(cache_key cfg ticker prompt_version_no_reasons article_id, true),
     (legacy_key cfg ticker prompt_version_no_reasons article_id, true)]
  else
    [(cache_key cfg ticker prompt_version_with_reasons article_id, false),
     (legacy_key cfg ticker prompt_version_with_reasons article_id, false)])

/-- The candidate loop of analyze_with_cache: the first cache value that
parse_cached accepts, together with the key it was found under. -/
def first_cached_hit (cache : KVCache) (article_id : String) :
    List (CacheKey × Bool) → Option (ArticleSentiment × CacheKey)
  | [] => none
  | (key, require_reason) :: rest =>
    match kvGet cache key with
    | some v =>
      match parse_cached article_id v require_reason with
      | some s => some (s, key)
      | none => first_cached_hit cache article_id rest
    | none => first_cached_hit cache article_id rest

/-- The per-article scan of analyze_with_cache: the cached results (keyed by
article id, in article order; the orchestrator is called with duplicate-free
article lists so dict insertion order is immaterial), the articles left to
analyze freshly, and the cache after the warm-forward rewrites. -/
def cache_scan (cfg : OpenAISentimentConfig) (ticker : String) (include_reasons : Bool) :
    Option KVCache → List NewsArticle →
    List (String × ArticleSentiment) × List NewsArticle × Option KVCache
  | cache, [] => ([], [], cache)
  | cache, a :: rest =>
    let prompt_version :=
      if include_reasons then prompt_version_with_reasons else prompt_version_no_reasons
    let primary_key := cache_key cfg ticker prompt_version a.article_id
    let hit :=
      match cache with
      | some kv =>
        first_cached_hit kv a.article_id (cache_candidates cfg ticker include_reasons a.article_id)
      | none => none
    match hit with
    | some (s, used_key) =>
      let cache2 : Option KVCache :=
        if used_key ≠ primary_key then
          cache.map (fun kv => kvSet kv primary_key (s.toDict true))
        else cache
      let next := cache_scan cfg ticker include_reasons cache2 rest
      ((a.article_id, s) :: next.1, next.2.1, next.2.2)
    | none =>
      let next := cache_scan cfg ticker include_reasons cache rest
      (next.1, a :: next.2.1, next.2.2)

/-- The batching loop of analyze_with_cache, with an explicit fuel argument
(the list length) so the definition is structural: slice of batch_size
elements, stepping by max 1 batch_size, exactly like
range(0, len(to_analyze), max(1, batch_size)) with to_analyze[i : i + batch_size]. -/
def batchesAux {α : Type} (batch_size : Nat) : Nat → List α → List (List α)
  | 0, _ => []
  | _, [] => []
  | fuel + 1, x :: xs =>
    (x :: xs).take batch_size :: batchesAux batch_size fuel ((x :: xs).drop (max 1 batch_size))

def batches {α : Type} (batch_size : Nat) (xs : List α) : List (List α) :=
  batchesAux batch_size xs.length xs

/-- The write-back loop of analyze_with_cache: every fresh result is stored
under its primary (current-version) key. -/
def cache_writes (cfg : OpenAISentimentConfig) (ticker pv : String)
    (rs : List ArticleSentiment) (kv0 : KVCache) : KVCache :=
  rs.foldl (fun acc r => kvSet acc (cache_key cfg ticker pv r.article_id) (r.toDict true)) kv0

/-- The batched fresh-classification results of analyze_with_cache. -/
def fresh_batch_results (batch_size : Nat) (oracle : List NewsArticle → List Json)
    (include_reasons : Bool) (to_analyze : List NewsArticle) : List ArticleSentiment :=
  ((batches batch_size to_analyze).map
    (fun batch => analyze_articles_with_openai (oracle batch) batch include_reasons)).flatten

/-- The fresh_by_id dictionary of analyze_with_cache. -/
def by_id_map (rs : List ArticleSentiment) : List (String × ArticleSentiment) :=
  rs.foldl (fun m r => assocSet m r.article_id r) []

/-- sentiment.analyze_with_cache up to (but not including) the final
summarize_sentiment call: the merged per-article results in input order, the
final cache state, and the articles that were sent for fresh classification.
The oracle supplies the decoded model output for each fresh batch. -/
def analyze_with_cache_core (cfg : OpenAISentimentConfig) (ticker : String)
    (articles : List NewsArticle) (cache : Option KVCache)
    (oracle : List NewsArticle → List Json) (include_reasons : Bool)
    (batch_size : Nat := 20) :
    List ArticleSentiment × Option KVCache × List NewsArticle :=
  let prompt_version :=
    if include_reasons then prompt_version_with_reasons else prompt_version_no_reasons
  let scan := cache_scan cfg ticker include_reasons cache articles
  let cached_results := scan.1
  let to_analyze := scan.2.1
  let cache1 := scan.2.2
  let fresh_results := fresh_batch_results batch_size oracle include_reasons to_analyze
  let cache2 := cache1.map (fun kv => cache_writes cfg ticker prompt_version fresh_results kv)
  let fresh_by_id := by_id_map fresh_results
  let merged := articles.map (fun a =>
    match assocGet cached_results a.article_id with
    | some s => s
    | none =>
      match assocGet fresh_by_id a.article_id with
      | some s => s
      | none => ⟨a.article_id, .neutral, 0, 0, none⟩)
  (merged, cache2, to_analyze)

/-- sentiment.analyze_with_cache: the merged results fed to summarize_sentiment. -/
noncomputable def analyze_with_cache (now : ℝ) (cfg : OpenAISentimentConfig)
    (ticker query : String) (articles : List NewsArticle) (cache : Option KVCache)
    (oracle : List NewsArticle → List Json) (include_reasons : Bool)
    (batch_size : Nat := 20) (half_life_hours : ℝ := 24) :
    SentimentSummary × Option KVCache × List NewsArticle :=
  let core := analyze_with_cache_core cfg ticker articles cache oracle include_reasons batch_size
  let article_by_id := fun aid =>
    assocGet (articles.foldl (fun m a => assocSet m a.article_id a) []) aid
  (summarize_sentiment now ticker query core.1 article_by_id half_life_hours,
   core.2.1, core.2.2)

/-- The renormalization parse_cached applies to a cache entry written by
ArticleSentiment.to_dict: clamp and sign-correct the numbers again and strip
or trim the reason. -/
def reparse (r : ArticleSentiment) : ArticleSentiment :=
  { article_id := r.article_id, label := r.label,
    score :=
      match r.label with
      | .neutral => 0
      | .positive => |clamp r.score (-1) 1|
      | .negative => -|clamp r.score (-1) 1|,
    confidence := clamp r.confidence 0 1,
    reason :=
      match r.reason with
      | some s => if pyStrip s = "" then none else some (truncate (pyStrip s) 140)
      | none => none }

/-- Whether a result's reason fails the require_reason test of parse_cached. -/
def reasonBlank (r : ArticleSentiment) : Bool :=
  match r.reason with
  | some s => pyStrip s == ""
  | none => true

theorem parse_cached_toDict (r : ArticleSentiment) (rr : Bool) :
    parse_cached r.article_id (r.toDict true) rr =
      if rr && reasonBlank r then none else some (reparse r) := by
  cases hl : r.label <;> cases hr : r.reason <;> cases rr
  all_goals try (rename_i s; by_cases hb : pyStrip s = "")
  all_goals
    simp [parse_cached, ArticleSentiment.toDict, jsonGet, labelOfString, SentimentLabel.toStr,
      pyFloatOf, reparse, reasonBlank, hl, hr, List.find?, beq_iff_eq, *]

theorem validate_openai_item_id (ir : Bool) (item : Json) (aid : String) (s : ArticleSentiment)
    (h : validate_openai_item ir item = some (aid, s)) : s.article_id = aid := by
  simp only [validate_openai_item] at h
  repeat' split at h
  all_goals try exact Option.noConfusion h
  all_goals (injection h with hp; injection hp with h1 h2; subst h1; subst h2; rfl)

theorem validate_openai_item_reason_none (item : Json) (aid : String) (s : ArticleSentiment)
    (h : validate_openai_item false item = some (aid, s)) : s.reason = none := by
  simp only [validate_openai_item] at h
  repeat' split at h
  all_goals try exact Option.noConfusion h
  all_goals first
    | (injection h with hp; injection hp with h1 h2; subst h1; subst h2; rfl)
    | simp_all

theorem openai_by_id_entries (ir : Bool) (P : String → ArticleSentiment → Prop)
    (hval : ∀ item aid s, validate_openai_item ir item = some (aid, s) → P aid s) :
    ∀ (raw : List Json) (m : List (String × ArticleSentiment)),
    (∀ k r, assocGet m k = some r → P k r) →
    ∀ k r, assocGet (raw.foldl (fun by_id item =>
      match validate_openai_item ir item with
      | some (aid, s) => assocSet by_id aid s
      | none => by_id) m) k = some r → P k r := by
  intro raw
  induction raw with
  | nil => intro m hm k r h; exact hm k r h
  | cons item rest ih =>
    intro m hm k r h
    rw [List.foldl_cons] at h
    refine ih _ ?_ k r h
    intro k2 r2 h2
    cases hv : validate_openai_item ir item with
    | none => rw [hv] at h2; exact hm k2 r2 h2
    | some p =>
      obtain ⟨aid, s⟩ := p
      rw [hv] at h2
      dsimp only at h2
      rw [assocGet_cons] at h2
      by_cases hak : (aid == k2) = true
      · rw [if_pos hak] at h2
        obtain rfl := Option.some.inj h2
        have h3 : aid = k2 := by simpa using hak
        subst h3
        exact hval item _ s hv
      · rw [if_neg hak] at h2
        exact hm k2 r2 h2

theorem analyze_ids (raw : List Json) (b : List NewsArticle) (ir : Bool) :
    (analyze_articles_with_openai raw b ir).map (fun r => r.article_id) =
      b.map (fun a => a.article_id) := by
  simp only [analyze_articles_with_openai, List.map_map]
  refine List.map_congr_left ?_
  intro a _
  simp only [Function.comp]
  cases hv : assocGet (openai_results_by_id ir raw) a.article_id with
  | none => rfl
  | some s =>
    simp only [openai_results_by_id] at hv
    exact openai_by_id_entries ir (fun k r => r.article_id = k)
      (fun item aid s2 h => validate_openai_item_id ir item aid s2 h) raw []
      (by intro k r h; simp [assocGet] at h) _ s hv

theorem analyze_reason_none (raw : List Json) (b : List NewsArticle) :
    ∀ r ∈ analyze_articles_with_openai raw b false, r.reason = none := by
  intro r hr
  simp only [analyze_articles_with_openai] at hr
  rw [List.mem_map] at hr
  obtain ⟨a, _, rfl⟩ := hr
  cases hv : assocGet (openai_results_by_id false raw) a.article_id with
  | none => rfl
  | some s =>
    simp only [openai_results_by_id] at hv
    exact openai_by_id_entries false (fun _ r => r.reason = none)
      (fun item aid s2 h => validate_openai_item_reason_none item aid s2 h) raw []
      (by intro k r h; simp [assocGet] at h) _ s hv

theorem batchesAux_flatten {α : Type} (bs : Nat) (hbs : 1 ≤ bs) :
    ∀ (fuel : Nat) (xs : List α), xs.length ≤ fuel → (batchesAux bs fuel xs).flatten = xs := by
  intro fuel
  induction fuel with
  | zero =>
    intro xs hx
    have : xs = [] := List.eq_nil_of_length_eq_zero (Nat.le_zero.mp hx)
    subst this
    rfl
  | succ n ih =>
    intro xs hx
    cases xs with
    | nil => rfl
    | cons x rest =>
      rw [batchesAux, List.flatten_cons, Nat.max_eq_right hbs]
      rw [ih ((x :: rest).drop bs) (by simp at hx ⊢; omega)]
      exact List.take_append_drop bs (x :: rest)

theorem batches_flatten {α : Type} (bs : Nat) (hbs : 1 ≤ bs) (xs : List α) :
    (batches bs xs).flatten = xs :=
  batchesAux_flatten bs hbs xs.length xs le_rfl

theorem fresh_results_ids (bs : Nat) (hbs : 1 ≤ bs) (oracle : List NewsArticle → List Json)
    (ir : Bool) (t : List NewsArticle) :
    (((batches bs t).map
      (fun batch => analyze_articles_with_openai (oracle batch) batch ir)).flatten).map
        (fun r => r.article_id) = t.map (fun a => a.article_id) := by
  rw [List.map_flatten, List.map_map]
  have hpt : ∀ b ∈ batches bs t,
      ((fun rs => rs.map (fun (r : ArticleSentiment) => r.article_id)) ∘
        (fun batch => analyze_articles_with_openai (oracle batch) batch ir)) b =
      b.map (fun a => a.article_id) := by
    intro b _
    simp only [Function.comp]
    exact analyze_ids (oracle b) b ir
  rw [List.map_congr_left hpt]
  rw [← List.map_flatten, batches_flatten bs hbs]

theorem assocGet_nil {α : Type} (k : String) : assocGet ([] : List (String × α)) k = none := rfl

theorem kvGet_cons (c : KVCache) (k k2 : CacheKey) (v : Json) :
    kvGet (kvSet c k v) k2 = if k == k2 then some v else kvGet c k2 := by
  by_cases h : (k == k2) = true <;> simp [kvSet, kvGet, List.find?, h]

theorem assocGet_foldl_by_id :
    ∀ (rs : List ArticleSentiment) (m : List (String × ArticleSentiment)) (k : String),
    assocGet (rs.foldl (fun m r => assocSet m r.article_id r) m) k =
      (match rs.reverse.find? (fun r => r.article_id == k) with
       | some r => some r
       | none => assocGet m k) := by
  intro rs
  induction rs with
  | nil => intro m k; rfl
  | cons r rest ih =>
    intro m k
    rw [List.foldl_cons, ih, List.reverse_cons, List.find?_append]
    cases hf : rest.reverse.find? (fun r2 => r2.article_id == k) with
    | some r2 => simp [Option.or]
    | none =>
      by_cases hp : (r.article_id == k) = true <;>
        simp [Option.or, List.find?, hp, assocGet_cons]

theorem kvGet_foldl_writes (cfg : OpenAISentimentConfig) (ticker pv : String) :
    ∀ (rs : List ArticleSentiment) (kv0 : KVCache) (k : CacheKey),
    kvGet (rs.foldl
      (fun acc r => kvSet acc (cache_key cfg ticker pv r.article_id) (r.toDict true)) kv0) k =
      (match rs.reverse.find? (fun r => cache_key cfg ticker pv r.article_id == k) with
       | some r => some (r.toDict true)
       | none => kvGet kv0 k) := by
  intro rs
  induction rs with
  | nil => intro kv0 k; rfl
  | cons r rest ih =>
    intro kv0 k
    rw [List.foldl_cons, ih, List.reverse_cons, List.find?_append]
    cases hf : rest.reverse.find? (fun r2 => cache_key cfg ticker pv r2.article_id == k) with
    | some r2 => simp [Option.or]
    | none =>
      by_cases hp : (cache_key cfg ticker pv r.article_id == k) = true <;>
        simp [Option.or, List.find?, hp, kvGet_cons]

theorem first_cached_hit_nil (aid : String) :
    ∀ cands, first_cached_hit [] aid cands = none := by
  intro cands
  induction cands with
  | nil => rfl
  | cons c rest ih =>
    obtain ⟨key, rr⟩ := c
    simp [first_cached_hit, kvGet, List.find?, ih]

theorem cache_scan_empty_cache (cfg : OpenAISentimentConfig) (ticker : String) (ir : Bool) :
    ∀ arts, cache_scan cfg ticker ir (some []) arts = ([], arts, some []) := by
  intro arts
  induction arts with
  | nil => rfl
  | cons a rest ih => simp [cache_scan, first_cached_hit_nil, ih]

theorem cache_scan_reasons_all_miss (cfg : OpenAISentimentConfig) (ticker : String) :
    ∀ (arts : List NewsArticle) (c : KVCache),
    (∀ a ∈ arts,
      kvGet c (cache_key cfg ticker prompt_version_with_reasons a.article_id) = none ∧
      kvGet c (legacy_key cfg ticker prompt_version_with_reasons a.article_id) = none ∧
      kvGet c (legacy_key cfg ticker prompt_version_no_reasons a.article_id) = none ∧
      (∀ v, kvGet c (cache_key cfg ticker prompt_version_no_reasons a.article_id) = some v →
        parse_cached a.article_id v true = none)) →
    cache_scan cfg ticker true (some c) arts = ([], arts, some c) := by
  intro arts
  induction arts with
  | nil => intro c _; rfl
  | cons a rest ih =>
    intro c hc
    obtain ⟨h1, h2, h3, h4⟩ := hc a (List.mem_cons_self a rest)
    have hhit : first_cached_hit c a.article_id
        (cache_candidates cfg ticker true a.article_id) = none := by
      cases hv : kvGet c (cache_key cfg ticker prompt_version_no_reasons a.article_id) with
      | none => simp [cache_candidates, first_cached_hit, h1, h2, h3, hv]
      | some v => simp [cache_candidates, first_cached_hit, h1, h2, h3, hv, h4 v hv]
    simp [cache_scan, hhit, ih c (fun a2 ha2 => hc a2 (List.mem_cons_of_mem a ha2))]

theorem cache_scan_no_reasons_all_hit (cfg : OpenAISentimentConfig) (ticker : String)
    (F : String → ArticleSentiment) :
    ∀ (arts : List NewsArticle) (c : KVCache),
    (arts.map (fun a => a.article_id)).Nodup →
    (∀ a ∈ arts,
      kvGet c (cache_key cfg ticker prompt_version_no_reasons a.article_id) = none ∧
      kvGet c (legacy_key cfg ticker prompt_version_no_reasons a.article_id) = none ∧
      kvGet c (legacy_key cfg ticker prompt_version_with_reasons a.article_id) = none ∧
      kvGet c (cache_key cfg ticker prompt_version_with_reasons a.article_id) =
        some ((F a.article_id).toDict true) ∧
      (F a.article_id).article_id = a.article_id) →
    (cache_scan cfg ticker false (some c) arts).1 =
      arts.map (fun a => (a.article_id, reparse (F a.article_id))) ∧
    (cache_scan cfg ticker false (some c) arts).2.1 = [] := by
  intro arts
  induction arts with
  | nil => intro c _ _; exact ⟨rfl, rfl⟩
  | cons a rest ih =>
    intro c hnd hc
    obtain ⟨h1, h2, h3, h4, h5⟩ := hc a (List.mem_cons_self a rest)
    have hparse : parse_cached a.article_id ((F a.article_id).toDict true) false =
        some (reparse (F a.article_id)) := by
      have hpd := parse_cached_toDict (F a.article_id) false
      rw [h5] at hpd
      simpa using hpd
    have hhit : first_cached_hit c a.article_id
        (cache_candidates cfg ticker false a.article_id) =
        some (reparse (F a.article_id),
          cache_key cfg ticker prompt_version_with_reasons a.article_id) := by
      simp [cache_candidates, first_cached_hit, h1, h2, h3, h4, hparse]
    have hne : cache_key cfg ticker prompt_version_with_reasons a.article_id ≠
        cache_key cfg ticker prompt_version_no_reasons a.article_id := by
      simp [cache_key, prompt_version_with_reasons, prompt_version_no_reasons]
    have hnotin : a.article_id ∉ rest.map (fun a2 => a2.article_id) := by
      simp only [List.map_cons, List.nodup_cons] at hnd
      exact hnd.1
    have hrest := ih (kvSet c (cache_key cfg ticker prompt_version_no_reasons a.article_id)
        ((reparse (F a.article_id)).toDict true))
      (by simp only [List.map_cons, List.nodup_cons] at hnd; exact hnd.2)
      (by
        intro a2 ha2
        obtain ⟨g1, g2, g3, g4, g5⟩ := hc a2 (List.mem_cons_of_mem a ha2)
        have hida : a2.article_id ≠ a.article_id := by
          intro hq
          exact hnotin (hq ▸ List.mem_map_of_mem (fun a3 => a3.article_id) ha2)
        refine ⟨?_, ?_, ?_, ?_, g5⟩ <;> rw [kvGet_cons]
        · rw [if_neg ?_, g1]
          simp [cache_key, hida.symm]
        · rw [if_neg ?_, g2]
          simp [cache_key, legacy_key]
        · rw [if_neg ?_, g3]
          simp [cache_key, legacy_key]
        · rw [if_neg ?_, g4]
          simp [cache_key, prompt_version_no_reasons, prompt_version_with_reasons])
    refine ⟨?_, ?_⟩ <;>
      simp [cache_scan, hhit, if_pos hne, hrest.1, hrest.2, Option.map_some']

theorem kvGet_cache_writes (cfg : OpenAISentimentConfig) (ticker pv : String)
    (rs : List ArticleSentiment) (kv0 : KVCache) (k : CacheKey) :
    kvGet (cache_writes cfg ticker pv rs kv0) k =
      (match rs.reverse.find? (fun r => cache_key cfg ticker pv r.article_id == k) with
       | some r => some (r.toDict true)
       | none => kvGet kv0 k) :=
  kvGet_foldl_writes cfg ticker pv rs kv0 k

theorem assocGet_by_id_map (rs : List ArticleSentiment) (k : String) :
    assocGet (by_id_map rs) k =
      (match rs.reverse.find? (fun r => r.article_id == k) with
       | some r => some r
       | none => none) := by
  rw [by_id_map, assocGet_foldl_by_id]
  cases rs.reverse.find? (fun r => r.article_id == k) <;> rfl

theorem writes_get_other_pv (cfg : OpenAISentimentConfig) (ticker : String) {pv pv2 : String}
    (hpv : pv ≠ pv2) (rs : List ArticleSentiment) (aid : String) :
    kvGet (cache_writes cfg ticker pv rs []) (cache_key cfg ticker pv2 aid) = none := by
  rw [kvGet_cache_writes]
  have hn : rs.reverse.find?
      (fun r => cache_key cfg ticker pv r.article_id == cache_key cfg ticker pv2 aid) = none := by
    rw [List.find?_eq_none]
    intro r _
    simp [cache_key, hpv]
  rw [hn]
  rfl

theorem writes_get_legacy (cfg : OpenAISentimentConfig) (ticker pv : String)
    (rs : List ArticleSentiment) (pv2 ticker2 aid : String) :
    kvGet (cache_writes cfg ticker pv rs []) (legacy_key cfg ticker2 pv2 aid) = none := by
  rw [kvGet_cache_writes]
  have hn : rs.reverse.find?
      (fun r => cache_key cfg ticker pv r.article_id == legacy_key cfg ticker2 pv2 aid) = none := by
    rw [List.find?_eq_none]
    intro r _
    simp [cache_key, legacy_key]
  rw [hn]
  rfl

theorem writes_get_same_pv (cfg : OpenAISentimentConfig) (ticker pv : String)
    (rs : List ArticleSentiment) (aid : String) :
    kvGet (cache_writes cfg ticker pv rs []) (cache_key cfg ticker pv aid) =
      (rs.reverse.find? (fun r => r.article_id == aid)).map (fun r => r.toDict true) := by
  rw [kvGet_cache_writes]
  have hpred : (fun r : ArticleSentiment =>
      cache_key cfg ticker pv r.article_id == cache_key cfg ticker pv aid) =
      (fun r : ArticleSentiment => r.article_id == aid) := by
    funext r
    by_cases h : r.article_id = aid <;> simp [cache_key, h]
  rw [hpred]
  cases hf : rs.reverse.find? (fun r => r.article_id == aid) <;> simp [kvGet]

theorem find_by_id_exists (fresh : List ArticleSentiment) (arts : List NewsArticle)
    (halign : fresh.map (fun r => r.article_id) = arts.map (fun a => a.article_id)) :
    ∀ a ∈ arts, ∃ r, fresh.reverse.find? (fun r => r.article_id == a.article_id) = some r := by
  intro a ha
  have hid : a.article_id ∈ fresh.map (fun r => r.article_id) := by
    rw [halign]
    exact List.mem_map_of_mem _ ha
  rw [List.mem_map] at hid
  obtain ⟨r, hr, hrid⟩ := hid
  have hsome : (fresh.reverse.find? (fun r => r.article_id == a.article_id)).isSome := by
    rw [List.find?_isSome]
    exact ⟨r, List.mem_reverse.mpr hr, by simp [hrid]⟩
  exact Option.isSome_iff_exists.mp hsome

theorem find_by_id_prop (fresh : List ArticleSentiment) (aid : String) (r : ArticleSentiment)
    (h : fresh.reverse.find? (fun r => r.article_id == aid) = some r) :
    r.article_id = aid ∧ r ∈ fresh :=
  ⟨by simpa using List.find?_some h, List.mem_reverse.mp (List.mem_of_find?_eq_some h)⟩

theorem fresh_reason_none (bs : Nat) (oracle : List NewsArticle → List Json)
    (t : List NewsArticle) :
    ∀ r ∈ fresh_batch_results bs oracle false t, r.reason = none := by
  intro r hr
  rw [fresh_batch_results, List.mem_flatten] at hr
  obtain ⟨l, hl, hrl⟩ := hr
  rw [List.mem_map] at hl
  obtain ⟨b, _, rfl⟩ := hl
  exact analyze_reason_none _ _ r hrl

theorem fresh_batch_ids (bs : Nat) (hbs : 1 ≤ bs) (oracle : List NewsArticle → List Json)
    (ir : Bool) (t : List NewsArticle) :
    (fresh_batch_results bs oracle ir t).map (fun r => r.article_id) =
      t.map (fun a => a.article_id) :=
  fresh_results_ids bs hbs oracle ir t

theorem assocGet_map_articles (g : NewsArticle → ArticleSentiment) :
    ∀ (arts : List NewsArticle), (arts.map (fun a => a.article_id)).Nodup →
    ∀ a ∈ arts,
      assocGet (arts.map (fun a2 => (a2.article_id, g a2))) a.article_id = some (g a) := by
  intro arts
  induction arts with
  | nil => intro _ a ha; exact absurd ha (List.not_mem_nil a)
  | cons a0 rest ih =>
    intro hnd a ha
    simp only [List.map_cons, List.nodup_cons] at hnd
    rcases List.mem_cons.mp ha with rfl | hmem
    · simp [assocGet, List.find?]
    · have hne : a.article_id ≠ a0.article_id := by
        intro hq
        exact hnd.1 (hq ▸ List.mem_map_of_mem (fun a3 => a3.article_id) hmem)
      have hb : ¬ ((a0.article_id == a.article_id) = true) := by simp [Ne.symm hne]
      rw [List.map_cons,
        show ((a0.article_id, g a0) :: rest.map (fun a2 => (a2.article_id, g a2))) =
          assocSet (rest.map (fun a2 => (a2.article_id, g a2))) a0.article_id (g a0) from rfl,
        assocGet_cons, if_neg hb]
      exact ih hnd.2 a hmem

/-- The unique fresh result carrying a given article id (used to describe the
orchestrator's cache and merge behaviour on duplicate-free article lists). -/
def fresh_lookup (fresh : List ArticleSentiment) (aid : String) : ArticleSentiment :=
  (fresh.reverse.find? (fun r => r.article_id == aid)).getD ⟨aid, .neutral, 0, 0, none⟩

theorem fresh_lookup_find (fresh : List ArticleSentiment) (arts : List NewsArticle)
    (halign : fresh.map (fun r => r.article_id) = arts.map (fun a => a.article_id)) :
    ∀ a ∈ arts, fresh.reverse.find? (fun r => r.article_id == a.article_id) =
      some (fresh_lookup fresh a.article_id) := by
  intro a ha
  obtain ⟨r, hr⟩ := find_by_id_exists fresh arts halign a ha
  rw [fresh_lookup, hr]
  rfl

theorem analyze_false_then_true_refetches (cfg : OpenAISentimentConfig) (ticker : String)
    (articles : List NewsArticle) (oracle1 oracle2 : List NewsArticle → List Json)
    (bs1 bs2 : Nat) :
    (analyze_with_cache_core cfg ticker articles
      (analyze_with_cache_core cfg ticker articles (some []) oracle1 false bs1).2.1
      oracle2 true bs2).2.2 = articles := by
  have hrun1 : (analyze_with_cache_core cfg ticker articles (some []) oracle1 false bs1).2.1 =
      some (cache_writes cfg ticker prompt_version_no_reasons
        (fresh_batch_results bs1 oracle1 false articles) []) := by
    simp [analyze_with_cache_core, cache_scan_empty_cache]
  rw [hrun1]
  have hscan := cache_scan_reasons_all_miss cfg ticker articles
    (cache_writes cfg ticker prompt_version_no_reasons
      (fresh_batch_results bs1 oracle1 false articles) []) ?_
  · simp only [analyze_with_cache_core, hscan]
  · intro a _
    refine ⟨?_, ?_, ?_, ?_⟩
    · exact writes_get_other_pv cfg ticker (by decide) _ a.article_id
    · exact writes_get_legacy cfg ticker _ _ _ _ a.article_id
    · exact writes_get_legacy cfg ticker _ _ _ _ a.article_id
    · intro v hv
      rw [writes_get_same_pv] at hv
      cases hf : (fresh_batch_results bs1 oracle1 false articles).reverse.find?
          (fun r => r.article_id == a.article_id) with
      | none => rw [hf] at hv; exact Option.noConfusion hv
      | some r =>
        rw [hf] at hv
        obtain rfl := Option.some.inj hv
        obtain ⟨hid, hmem⟩ := find_by_id_prop _ _ _ hf
        have hreason := fresh_reason_none bs1 oracle1 articles r hmem
        have hpd := parse_cached_toDict r true
        rw [hid] at hpd
        simpa [reasonBlank, hreason] using hpd

theorem analyze_true_then_false_reuses (cfg : OpenAISentimentConfig) (ticker : String)
    (articles : List NewsArticle) (oracle1 oracle2 : List NewsArticle → List Json)
    (bs1 bs2 : Nat) (hnd : (articles.map (fun a => a.article_id)).Nodup) (hbs1 : 1 ≤ bs1) :
    (analyze_with_cache_core cfg ticker articles
      (analyze_with_cache_core cfg ticker articles (some []) oracle1 true bs1).2.1
      oracle2 false bs2).2.2 = [] ∧
    (analyze_with_cache_core cfg ticker articles
      (analyze_with_cache_core cfg ticker articles (some []) oracle1 true bs1).2.1
      oracle2 false bs2).1 =
      (analyze_with_cache_core cfg ticker articles (some []) oracle1 true bs1).1.map reparse := by
  have halign := fresh_batch_ids bs1 hbs1 oracle1 true articles
  have hF := fresh_lookup_find (fresh_batch_results bs1 oracle1 true articles) articles halign
  have hFid : ∀ a ∈ articles,
      (fresh_lookup (fresh_batch_results bs1 oracle1 true articles) a.article_id).article_id =
        a.article_id := by
    intro a ha
    exact (find_by_id_prop _ _ _ (hF a ha)).1
  have hrun1cache :
      (analyze_with_cache_core cfg ticker articles (some []) oracle1 true bs1).2.1 =
      some (cache_writes cfg ticker prompt_version_with_reasons
        (fresh_batch_results bs1 oracle1 true articles) []) := by
    simp [analyze_with_cache_core, cache_scan_empty_cache]
  have hrun1merged :
      (analyze_with_cache_core cfg ticker articles (some []) oracle1 true bs1).1 =
      articles.map (fun a =>
        fresh_lookup (fresh_batch_results bs1 oracle1 true articles) a.article_id) := by
    simp only [analyze_with_cache_core, cache_scan_empty_cache]
    refine List.map_congr_left ?_
    intro a ha
    simp only [assocGet_nil]
    rw [assocGet_by_id_map, hF a ha]
  have hscan2 := cache_scan_no_reasons_all_hit cfg ticker
    (fresh_lookup (fresh_batch_results bs1 oracle1 true articles)) articles
    (cache_writes cfg ticker prompt_version_with_reasons
      (fresh_batch_results bs1 oracle1 true articles) []) hnd ?_
  · rw [hrun1cache, hrun1merged]
    constructor
    · simp only [analyze_with_cache_core]
      exact hscan2.2
    · rw [List.map_map]
      simp only [analyze_with_cache_core]
      refine List.map_congr_left ?_
      intro a ha
      rw [hscan2.1]
      rw [assocGet_map_articles
        (fun a2 => reparse (fresh_lookup (fresh_batch_results bs1 oracle1 true articles) a2.article_id))
        articles hnd a ha]
      rfl
  · intro a ha
    refine ⟨?_, ?_, ?_, ?_, hFid a ha⟩
    · exact writes_get_other_pv cfg ticker (by decide) _ a.article_id
    · exact writes_get_legacy cfg ticker _ _ _ _ a.article_id
    · exact writes_get_legacy cfg ticker _ _ _ _ a.article_id
    · rw [writes_get_same_pv, hF a ha]
      rfl

/-- C3 (amended): starting from a fresh cache, running analyze_with_cache with
include_reasons False and then True over the same duplicate-free articles
sends every article for fresh classification in the second run (the earlier
reason-less cache entries never satisfy a reasons-required lookup);
conversely, running with True and then False makes no classification call in
the second run and returns the first run's results re-normalized from their
cache entries — cached reasons are retained (trimmed and truncated), not
stripped. -/
theorem C3_include_reasons_cache_switch (cfg : OpenAISentimentConfig) (ticker : String)
    (articles : List NewsArticle) (oracle1 oracle2 : List NewsArticle → List Json)
    (bs1 bs2 : Nat) (hnd : (articles.map (fun a => a.article_id)).Nodup) (hbs1 : 1 ≤ bs1) :
    (analyze_with_cache_core cfg ticker articles
      (analyze_with_cache_core cfg ticker articles (some []) oracle1 false bs1).2.1
      oracle2 true bs2).2.2 = articles ∧
    (analyze_with_cache_core cfg ticker articles
      (analyze_with_cache_core cfg ticker articles (some []) oracle1 true bs1).2.1
      oracle2 false bs2).2.2 = [] ∧
    (analyze_with_cache_core cfg ticker articles
      (analyze_with_cache_core cfg ticker articles (some []) oracle1 true bs1).2.1
      oracle2 false bs2).1 =
      (analyze_with_cache_core cfg ticker articles (some []) oracle1 true bs1).1.map reparse :=
  ⟨analyze_false_then_true_refetches cfg ticker articles oracle1 oracle2 bs1 bs2,
   (analyze_true_then_false_reuses cfg ticker articles oracle1 oracle2 bs1 bs2 hnd hbs1).1,
   (analyze_true_then_false_reuses cfg ticker articles oracle1 oracle2 bs1 bs2 hnd hbs1).2⟩

/-- The configuration of the concrete include_reasons switching scenario. -/
def c3cfg : OpenAISentimentConfig := ⟨"k", "m", "https://api.openai.com/v1", 0, 900⟩

/-- The single article of the concrete include_reasons switching scenario. -/
def c3article : NewsArticle := ⟨"a1", "Good news", "Profits up", none, none, some 0⟩

/-- The model output of the concrete scenario's reasoned run. -/
def c3raw : Json :=
  .obj [("article_id", .str "a1"), ("label", .str "positive"), ("score", .num 1),
        ("confidence", .num 1), ("reason", .str "earnings beat")]

theorem C3_include_reasons_cache_switch_witness :
    (analyze_with_cache_core c3cfg "TSLA" [c3article]
      (analyze_with_cache_core c3cfg "TSLA" [c3article] (some []) (fun _ => [c3raw]) false 20).2.1
      (fun _ => []) true 20).2.2 = [c3article] :=
  (C3_include_reasons_cache_switch c3cfg "TSLA" [c3article] (fun _ => [c3raw]) (fun _ => [])
    20 20 (by decide) (by decide)).1

/-- C3 counterexample: in the concrete scenario, after a run with
include_reasons True, the second run with include_reasons False reuses the
reasoned cache entry but returns it with the reason intact, so the claim's
assertion that the second run's results are stripped of reason is false. -/
theorem C3_claim_counterexample :
    ((analyze_with_cache_core c3cfg "TSLA" [c3article]
        (analyze_with_cache_core c3cfg "TSLA" [c3article] (some []) (fun _ => [c3raw]) true 20).2.1
        (fun _ => []) false 20).1.map (fun r => r.reason) = [some "earnings beat"]) ∧
    some "earnings beat" ≠ (none : Option String) := by
  exact ⟨by decide, by decide⟩

/-- The decoded body of an HTTP response: the UTF-8 text together with the
outcome of json.loads on it (none when the text is not valid JSON). -/
structure HttpBody where
  raw : String
  parsed : Option Json

/-- An HTTP response as returned by http._request: status 0 stands for a
network error or timeout, in which case net_err carries str(exception).
Retry-After headers only influence sleep durations, which are not modelled. -/
structure HttpResp where
  status : Nat
  body : HttpBody
  net_err : Option String := none

/-- A URL as split by urlsplit: everything before the query string plus the
decoded query parameter list (percent-encoding is not modelled; the
urlsplit ValueError fallback of _redact_url cannot arise on this
representation). -/
structure Url where
  base : String
  query : List (String × String)

/-- http._REDACTED_QUERY_KEYS. -/
def secret_query_keys : List String :=
  ["apikey", "api_key", "access_token", "auth", "authorization", "key", "token"]

/-- Python str.lower. -/
def pyLower (s : String) : String := String.mk (s.data.map Char.toLower)

/-- Python method.upper(). -/
def pyUpper (s : String) : String := String.mk (s.data.map Char.toUpper)

/-- Case-insensitive membership in the secret key set. -/
def isSecretKey (k : String) : Bool := secret_query_keys.contains (pyLower k)

/-- http._redact_url: replace the value of each secret-keyed query parameter
with REDACTED; a URL without secret parameters is returned unchanged. -/
def redact_url (u : Url) : Url :=
  if u.query.all (fun kv => !(isSecretKey kv.1)) then u
  else
    { base := u.base,
      query := u.query.map (fun kv => if isSecretKey kv.1 then (kv.1, "REDACTED") else kv) }

/-- The urlencode rendering of a query parameter list. -/
def render_query : List (String × String) → String
  | [] => ""
  | [kv] => kv.1 ++ "=" ++ kv.2
  | kv :: rest => kv.1 ++ "=" ++ kv.2 ++ "&" ++ render_query rest

/-- The string form of a URL (urlunsplit after urlencode). -/
def urlToString (u : Url) : String :=
  if u.query.isEmpty then u.base else u.base ++ "?" ++ render_query u.query

/-- http._truncate_for_error. -/
def truncate_for_error (text : String) (limit : Nat := 1200) : String :=
  if text = "" then ""
  else
    let cleaned := pyCollapseWs text
    if cleaned.data.length ≤ limit then cleaned
    else pyRstrip (String.mk (cleaned.data.take (limit - 1))) ++ "…"

/-- Python truthiness of a decoded JSON value (used by the code-or-type
fallback in _extract_error_detail). -/
def jsonTruthy : Json → Bool
  | .null => false
  | .bool b => b
  | .num q => !(q == 0)
  | .nonfinite => true
  | .str s => !(s == "")
  | .arr xs => !xs.isEmpty
  | .obj kvs => !kvs.isEmpty

/-- http._extract_error_detail. -/
def extract_error_detail (body : HttpBody) : String :=
  if body.raw = "" then ""
  else
    let text := pyStrip body.raw
    if text = "" then ""
    else
      match body.parsed with
      | none => truncate_for_error text
      | some (.obj kvs) =>
        let fromError : Option String :=
          match jsonGet kvs "error" with
          | some (.obj ekvs) =>
            let code :=
              match jsonGet ekvs "code" with
              | some c => if jsonTruthy c then some c else jsonGet ekvs "type"
              | none => jsonGet ekvs "type"
            match jsonGet ekvs "message" with
            | some (.str m) =>
              if pyStrip m = "" then none
              else
                match code with
                | some (.str cs) =>
                  if pyStrip cs = "" then some (truncate_for_error (pyStrip m))
                  else some (truncate_for_error (pyStrip m ++ " (" ++ pyStrip cs ++ ")"))
                | _ => some (truncate_for_error (pyStrip m))
            | _ => none
          | _ => none
        match fromError with
        | some s => s
        | none =>
          match jsonGet kvs "message" with
          | some (.str m) =>
            if pyStrip m = "" then truncate_for_error text
            else
              match jsonGet kvs "code" with
              | some (.str cs) =>
                if pyStrip cs = "" then truncate_for_error (pyStrip m)
                else truncate_for_error (pyStrip m ++ " (" ++ pyStrip cs ++ ")")
              | _ => truncate_for_error (pyStrip m)
          | _ => truncate_for_error text
      | some _ => truncate_for_error text

/-- The transient status set of http_request_json and http_request_bytes. -/
def is_transient_status (status : Nat) : Bool :=
  status == 0 || status == 429 || status == 500 || status == 502 || status == 503 || status == 504

/-- The RemoteApiError message raised on a final non-2xx response (shared by
http_request_json and http_request_bytes, which inline identical text). -/
def http_error_message (method : String) (url : Url) (r : HttpResp) : String :=
  let message0 := extract_error_detail r.body
  let message := if message0 = "" then (match r.net_err with | some e => e | none => "") else message0
  let safe_url := urlToString (redact_url url)
  if message ≠ "" then
    pyUpper method ++ " " ++ safe_url ++ " failed (" ++ toString r.status ++ "): " ++ message
  else
    pyUpper method ++ " " ++ safe_url ++ " failed (" ++ toString r.status ++ ")"

/-- The Python type name of a decoded JSON value (ints and floats are
collapsed into float here; the distinction does not affect any claim). -/
def jsonTypeName : Json → String
  | .null => "NoneType"
  | .bool _ => "bool"
  | .num _ => "float"
  | .nonfinite => "float"
  | .str _ => "str"
  | .arr _ => "list"
  | .obj _ => "dict"

/-- The non-retry tail of one http_request_json loop iteration: raise with a
redacted URL on a non-2xx status, else decode and require a JSON object.
RemoteApiError is represented as the Except error carrying its message (the
JSON decoder's own detail text is omitted from the invalid-JSON message). -/
def finalize_json (method : String) (url : Url) (r : HttpResp) : Except String Json :=
  if r.status < 200 ∨ 300 ≤ r.status then .error (http_error_message method url r)
  else
    match r.body.parsed with
    | none =>
      .error (pyUpper method ++ " " ++ urlToString (redact_url url) ++ " returned invalid JSON")
    | some (.obj kvs) => .ok (.obj kvs)
    | some parsed =>
      .error (pyUpper method ++ " " ++ urlToString (redact_url url) ++
        " returned unexpected JSON type: " ++ jsonTypeName parsed)

/-- The retry loop of http_request_json, with explicit fuel (initially
max_retries) so the definition is structural: retry while the status is
transient and attempt < max_retries, else finalize. -/
def http_json_go (method : String) (url : Url) (responses : Nat → HttpResp)
    (max_retries : Nat) : Nat → Nat → Except String Json
  | attempt, 0 => finalize_json method url (responses attempt)
  | attempt, fuel + 1 =>
    if is_transient_status (responses attempt).status && decide (attempt < max_retries) then
      http_json_go method url responses max_retries (attempt + 1) fuel
    else finalize_json method url (responses attempt)

/-- http.http_request_json: the oracle maps each attempt number to the
response observed on that attempt. -/
def http_request_json (method : String) (url : Url) (responses : Nat → HttpResp)
    (max_retries : Nat) : Except String Json :=
  http_json_go method url responses max_retries 0 max_retries

/-- The non-retry tail of one http_request_bytes loop iteration. -/
def finalize_bytes (method : String) (url : Url) (r : HttpResp) : Except String String :=
  if r.status < 200 ∨ 300 ≤ r.status then .error (http_error_message method url r)
  else .ok r.body.raw

/-- The retry loop of http_request_bytes, with explicit fuel. -/
def http_bytes_go (method : String) (url : Url) (responses : Nat → HttpResp)
    (max_retries : Nat) : Nat → Nat → Except String String
  | attempt, 0 => finalize_bytes method url (responses attempt)
  | attempt, fuel + 1 =>
    if is_transient_status (responses attempt).status && decide (attempt < max_retries) then
      http_bytes_go method url responses max_retries (attempt + 1) fuel
    else finalize_bytes method url (responses attempt)

/-- http.http_request_bytes. -/
def http_request_bytes (method : String) (url : Url) (responses : Nat → HttpResp)
    (max_retries : Nat) : Except String String :=
  http_bytes_go method url responses max_retries 0 max_retries

theorem http_json_go_congr (method : String) (url : Url) (f g : Nat → HttpResp) (mr : Nat) :
    ∀ (fuel attempt : Nat), (∀ i, i ≤ mr → f i = g i) → attempt ≤ mr →
    http_json_go method url f mr attempt fuel = http_json_go method url g mr attempt fuel := by
  intro fuel
  induction fuel with
  | zero =>
    intro attempt h ha
    simp only [http_json_go, h attempt ha]
  | succ n ih =>
    intro attempt h ha
    simp only [http_json_go, h attempt ha]
    by_cases hc : (is_transient_status (g attempt).status && decide (attempt < mr)) = true
    · simp only [if_pos hc]
      exact ih (attempt + 1) h
        (by
          rw [Bool.and_eq_true] at hc
          have := of_decide_eq_true hc.2
          omega)
    · simp only [if_neg hc]

theorem http_json_first_not_transient (method : String) (url : Url)
    (responses : Nat → HttpResp) (mr : Nat)
    (h : is_transient_status (responses 0).status = false) :
    http_request_json method url responses mr = finalize_json method url (responses 0) := by
  rw [http_request_json]
  cases mr with
  | zero => rfl
  | succ n => simp [http_json_go, h]

theorem http_json_retry_scenario (method : String) (url : Url) (responses : Nat → HttpResp)
    (raw : String) (kvs : List (String × Json)) (mr : Nat)
    (h0 : (responses 0).status = 429) (h1 : (responses 1).status = 429)
    (h2 : responses 2 = ⟨200, ⟨raw, some (.obj kvs)⟩, none⟩) (hmr : 2 ≤ mr) :
    http_request_json method url responses mr = .ok (.obj kvs) := by
  obtain ⟨k, rfl⟩ : ∃ k, mr = k + 2 := ⟨mr - 2, by omega⟩
  rw [http_request_json]
  have hp0 : (0 : Nat) < k + 2 := by omega
  have hp1 : (1 : Nat) < k + 2 := by omega
  simp only [http_json_go, h0, h1, is_transient_status, decide_eq_true_eq]
  rw [if_pos (by simp [hp0]), if_pos (by simp [hp1])]
  cases k with
  | zero => simp [http_json_go, h2, finalize_json]
  | succ m => simp [http_json_go, h2, finalize_json, is_transient_status]

theorem http_json_no_retries (method : String) (url : Url) (responses : Nat → HttpResp)
    (h : (responses 0).status = 500) :
    http_request_json method url responses 0 =
      .error (http_error_message method url (responses 0)) := by
  rw [http_request_json]
  simp [http_json_go, finalize_json, h]

/-- C5: the transient (retry-triggering) statuses are exactly 0, 429, 500,
502, 503 and 504; a non-transient first response is finalized with no retry;
the response sequence 429, 429, 200 with max_retries at least 2 yields the
parsed 200 body; an all-500 sequence with max_retries 0 raises RemoteApiError
built from the first response; and the result depends only on the first
max_retries + 1 responses. -/
theorem C5_http_retry_behavior :
    (∀ s : Nat, is_transient_status s = true ↔ (s = 0 ∨ s = 429 ∨ s = 500 ∨ s = 502 ∨ s = 503 ∨ s = 504)) ∧
    (∀ (method : String) (url : Url) (responses : Nat → HttpResp) (mr : Nat),
      is_transient_status (responses 0).status = false →
      http_request_json method url responses mr = finalize_json method url (responses 0)) ∧
    (∀ (method : String) (url : Url) (responses : Nat → HttpResp) (raw : String)
      (kvs : List (String × Json)) (mr : Nat),
      (responses 0).status = 429 → (responses 1).status = 429 →
      responses 2 = ⟨200, ⟨raw, some (.obj kvs)⟩, none⟩ → 2 ≤ mr →
      http_request_json method url responses mr = .ok (.obj kvs)) ∧
    (∀ (method : String) (url : Url) (responses : Nat → HttpResp),
      (responses 0).status = 500 →
      http_request_json method url responses 0 =
        .error (http_error_message method url (responses 0))) ∧
    (∀ (method : String) (url : Url) (f g : Nat → HttpResp) (mr : Nat),
      (∀ i, i ≤ mr → f i = g i) →
      http_request_json method url f mr = http_request_json method url g mr) := by
  refine ⟨?_, ?_, ?_, ?_, ?_⟩
  · intro s
    simp [is_transient_status, or_assoc]
  · intro method url responses mr h
    exact http_json_first_not_transient method url responses mr h
  · intro method url responses raw kvs mr h0 h1 h2 hmr
    exact http_json_retry_scenario method url responses raw kvs mr h0 h1 h2 hmr
  · intro method url responses h
    exact http_json_no_retries method url responses h
  · intro method url f g mr h
    exact http_json_go_congr method url f g mr mr 0 h (Nat.zero_le mr)

/-- The responses of the concurrency-free C5 retry scenario. -/
def c5responses : Nat → HttpResp := fun n =>
  if n = 0 then ⟨429, ⟨"", none⟩, none⟩
  else if n = 1 then ⟨429, ⟨"", none⟩, none⟩
  else ⟨200, ⟨"r", some (.obj [])⟩, none⟩

theorem C5_http_retry_behavior_witness :
    http_request_json "get" ⟨"https://api.example.com/v1", []⟩ c5responses 2 =
      .ok (.obj []) :=
  C5_http_retry_behavior.2.2.1 "get" ⟨"https://api.example.com/v1", []⟩ c5responses "r" [] 2
    rfl rfl rfl (by decide)

/-- Substring occurrence on character lists (contiguous run). -/
def occursChars (n : List Char) : List Char → Bool
  | [] => n.isEmpty
  | c :: rest => n.isPrefixOf (c :: rest) || occursChars n rest

/-- Substring occurrence on strings. -/
def occursIn (needle hay : String) : Bool := occursChars needle.data hay.data

theorem isPrefixOf_extend : ∀ (n x t : List Char), n.isPrefixOf x = true →
    n.isPrefixOf (x ++ t) = true := by
  intro n
  induction n with
  | nil =>
    intro x t _
    cases x ++ t <;> simp [List.isPrefixOf]
  | cons c n2 ih =>
    intro x t h
    cases x with
    | nil => simp [List.isPrefixOf] at h
    | cons d x2 =>
      simp only [List.isPrefixOf, Bool.and_eq_true] at h ⊢
      exact ⟨h.1, ih x2 t h.2⟩

theorem isPrefixOf_self_chars : ∀ n : List Char, n.isPrefixOf n = true := by
  intro n
  induction n with
  | nil => rfl
  | cons c n2 ih => simp [List.isPrefixOf, ih]

theorem occursChars_nil_needle : ∀ l : List Char, occursChars [] l = true := by
  intro l
  cases l <;> simp [occursChars, List.isPrefixOf, List.isEmpty]

theorem occursChars_mono_right : ∀ (n h t : List Char), occursChars n h = true →
    occursChars n (h ++ t) = true := by
  intro n h
  induction h with
  | nil =>
    intro t hh
    have : n = [] := by
      cases n with
      | nil => rfl
      | cons c n2 => simp [occursChars, List.isEmpty] at hh
    subst this
    exact occursChars_nil_needle t
  | cons c h2 ih =>
    intro t hh
    simp only [occursChars, Bool.or_eq_true] at hh ⊢
    rcases hh with hp | hr
    · exact Or.inl (isPrefixOf_extend n (c :: h2) t hp)
    · exact Or.inr (ih t hr)

theorem occursChars_mono_left : ∀ (n t h : List Char), occursChars n h = true →
    occursChars n (t ++ h) = true := by
  intro n t
  induction t with
  | nil => intro h hh; exact hh
  | cons d t2 ih =>
    intro h hh
    simp only [List.cons_append, occursChars, Bool.or_eq_true]
    exact Or.inr (ih h hh)

theorem occursChars_self : ∀ n : List Char, occursChars n n = true := by
  intro n
  cases n with
  | nil => rfl
  | cons c n2 => simp [occursChars, isPrefixOf_self_chars]

theorem occursIn_mono_right (n h t : String) (hh : occursIn n h = true) :
    occursIn n (h ++ t) = true := by
  rw [occursIn, String.data_append]
  exact occursChars_mono_right n.data h.data t.data hh

theorem occursIn_mono_left (n t h : String) (hh : occursIn n h = true) :
    occursIn n (t ++ h) = true := by
  rw [occursIn, String.data_append]
  exact occursChars_mono_left n.data t.data h.data hh

theorem occursIn_self (n : String) : occursIn n n = true :=
  occursChars_self n.data

theorem redact_url_mem (u : Url) (k v : String) (hkv : (k, v) ∈ u.query)
    (hk : isSecretKey k = true) : (k, "REDACTED") ∈ (redact_url u).query := by
  rw [redact_url]
  by_cases hall : u.query.all (fun kv => !(isSecretKey kv.1)) = true
  · exfalso
    have := List.all_eq_true.mp hall (k, v) hkv
    simp [hk] at this
  · rw [if_neg hall]
    have hm := List.mem_map_of_mem
      (fun kv : String × String => if isSecretKey kv.1 then (kv.1, "REDACTED") else kv) hkv
    simpa [hk] using hm

theorem occursIn_render_query (q : List (String × String)) (k : String)
    (h : (k, "REDACTED") ∈ q) : occursIn "REDACTED" (render_query q) = true := by
  induction q with
  | nil => cases h
  | cons kv rest ih =>
    rcases List.mem_cons.mp h with heq | hmem
    · subst heq
      cases rest with
      | nil =>
        exact occursIn_mono_left _ _ _ (occursIn_self "REDACTED")
      | cons r2 rest2 =>
        show occursIn "REDACTED"
          (k ++ "=" ++ "REDACTED" ++ "&" ++ render_query (r2 :: rest2)) = true
        exact occursIn_mono_right _ _ _ (occursIn_mono_right _ _ _
          (occursIn_mono_left _ _ _ (occursIn_self "REDACTED")))
    · cases rest with
      | nil => cases hmem
      | cons r2 rest2 =>
        show occursIn "REDACTED"
          (kv.1 ++ "=" ++ kv.2 ++ "&" ++ render_query (r2 :: rest2)) = true
        exact occursIn_mono_left _ _ _ (ih hmem)

theorem occursIn_urlToString (u : Url) (k : String) (h : (k, "REDACTED") ∈ u.query) :
    occursIn "REDACTED" (urlToString u) = true := by
  obtain ⟨b, q⟩ := u
  cases q with
  | nil => cases h
  | cons kv rest =>
    rw [urlToString]
    simp only [List.isEmpty, if_neg]
    exact occursIn_mono_left _ _ _ (occursIn_render_query (kv :: rest) k h)

theorem http_error_message_contains (method : String) (u : Url) (r : HttpResp)
    (k v : String) (hkv : (k, v) ∈ u.query) (hk : isSecretKey k = true) :
    occursIn "REDACTED" (http_error_message method u r) = true := by
  have hsafe := occursIn_urlToString (redact_url u) k (redact_url_mem u k v hkv hk)
  rw [http_error_message]
  repeat' split
  all_goals repeat' first
    | exact occursIn_mono_left _ _ _ hsafe
    | apply occursIn_mono_right

theorem finalize_json_error_contains (method : String) (u : Url) (r : HttpResp)
    (msg k v : String) (hkv : (k, v) ∈ u.query) (hk : isSecretKey k = true)
    (h : finalize_json method u r = .error msg) : occursIn "REDACTED" msg = true := by
  have hsafe := occursIn_urlToString (redact_url u) k (redact_url_mem u k v hkv hk)
  rw [finalize_json] at h
  split at h
  · obtain rfl := Except.error.inj h
    exact http_error_message_contains method u r k v hkv hk
  · split at h
    · obtain rfl := Except.error.inj h
      repeat' first
        | exact occursIn_mono_left _ _ _ hsafe
        | apply occursIn_mono_right
    · exact Except.noConfusion h
    · obtain rfl := Except.error.inj h
      repeat' first
        | exact occursIn_mono_left _ _ _ hsafe
        | apply occursIn_mono_right

theorem finalize_bytes_error_contains (method : String) (u : Url) (r : HttpResp)
    (msg k v : String) (hkv : (k, v) ∈ u.query) (hk : isSecretKey k = true)
    (h : finalize_bytes method u r = .error msg) : occursIn "REDACTED" msg = true := by
  rw [finalize_bytes] at h
  split at h
  · obtain rfl := Except.error.inj h
    exact http_error_message_contains method u r k v hkv hk
  · exact Except.noConfusion h

theorem http_json_go_error_contains (method : String) (u : Url)
    (responses : Nat → HttpResp) (mr : Nat) (k v : String)
    (hkv : (k, v) ∈ u.query) (hk : isSecretKey k = true) :
    ∀ (fuel attempt : Nat) (msg : String),
    http_json_go method u responses mr attempt fuel = .error msg →
    occursIn "REDACTED" msg = true := by
  intro fuel
  induction fuel with
  | zero =>
    intro attempt msg h
    exact finalize_json_error_contains method u (responses attempt) msg k v hkv hk h
  | succ n ih =>
    intro attempt msg h
    rw [http_json_go] at h
    split at h
    · exact ih (attempt + 1) msg h
    · exact finalize_json_error_contains method u (responses attempt) msg k v hkv hk h

theorem http_bytes_go_error_contains (method : String) (u : Url)
    (responses : Nat → HttpResp) (mr : Nat) (k v : String)
    (hkv : (k, v) ∈ u.query) (hk : isSecretKey k = true) :
    ∀ (fuel attempt : Nat) (msg : String),
    http_bytes_go method u responses mr attempt fuel = .error msg →
    occursIn "REDACTED" msg = true := by
  intro fuel
  induction fuel with
  | zero =>
    intro attempt msg h
    exact finalize_bytes_error_contains method u (responses attempt) msg k v hkv hk h
  | succ n ih =>
    intro attempt msg h
    rw [http_bytes_go] at h
    split at h
    · exact ih (attempt + 1) msg h
    · exact finalize_bytes_error_contains method u (responses attempt) msg k v hkv hk h

theorem http_json_go_redact_congr (method : String) (u1 u2 : Url)
    (responses : Nat → HttpResp) (mr : Nat) (h : redact_url u1 = redact_url u2) :
    ∀ (fuel attempt : Nat),
    http_json_go method u1 responses mr attempt fuel =
      http_json_go method u2 responses mr attempt fuel := by
  intro fuel
  induction fuel with
  | zero => intro attempt; simp [http_json_go, finalize_json, http_error_message, h]
  | succ n ih =>
    intro attempt
    rw [http_json_go, http_json_go]
    split
    · exact ih (attempt + 1)
    · simp [finalize_json, http_error_message, h]

theorem http_bytes_go_redact_congr (method : String) (u1 u2 : Url)
    (responses : Nat → HttpResp) (mr : Nat) (h : redact_url u1 = redact_url u2) :
    ∀ (fuel attempt : Nat),
    http_bytes_go method u1 responses mr attempt fuel =
      http_bytes_go method u2 responses mr attempt fuel := by
  intro fuel
  induction fuel with
  | zero => intro attempt; simp [http_bytes_go, finalize_bytes, http_error_message, h]
  | succ n ih =>
    intro attempt
    rw [http_bytes_go, http_bytes_go]
    split
    · exact ih (attempt + 1)
    · simp [finalize_bytes, http_error_message, h]

/-- The message of a RemoteApiError outcome, absent on success. -/
def exceptErrorText {α : Type} : Except String α → Option String
  | .error m => some m
  | .ok _ => none

/-- The URL of the concrete redaction scenario. -/
def c6url : Url := ⟨"https://api.example.com/v1", [("apiKey", "SECRET123")]⟩

/-- A repeated 500 response with an empty body. -/
def c6fail_empty : Nat → HttpResp := fun _ => ⟨500, ⟨"", none⟩, none⟩

/-- A repeated 500 response whose body is not parseable JSON. -/
def c6fail_notjson : Nat → HttpResp := fun _ => ⟨500, ⟨"<<server error page>>", none⟩, none⟩

/-- C6: the URL enters every RemoteApiError message only through _redact_url,
so two runs differing only in redacted query values produce identical
results (in particular identical error messages, which therefore cannot
reveal the secret); every secret-keyed query parameter is replaced by the
REDACTED placeholder, which then occurs in the rendered redacted URL and in
every error message raised for such a URL, by http_request_json and
http_request_bytes alike; concretely, with apiKey=SECRET123 and a 500
response with an empty or unparseable body, the raised message contains
REDACTED and not SECRET123. -/
theorem C6_secret_redaction :
    (∀ (method : String) (u1 u2 : Url) (responses : Nat → HttpResp) (mr : Nat),
      redact_url u1 = redact_url u2 →
      http_request_json method u1 responses mr = http_request_json method u2 responses mr ∧
      http_request_bytes method u1 responses mr = http_request_bytes method u2 responses mr) ∧
    (∀ (u : Url) (k v : String), (k, v) ∈ u.query → isSecretKey k = true →
      (k, "REDACTED") ∈ (redact_url u).query ∧
      occursIn "REDACTED" (urlToString (redact_url u)) = true) ∧
    (∀ (method : String) (u : Url) (responses : Nat → HttpResp) (mr : Nat) (msg k v : String),
      (k, v) ∈ u.query → isSecretKey k = true →
      http_request_json method u responses mr = .error msg →
      occursIn "REDACTED" msg = true) ∧
    (∀ (method : String) (u : Url) (responses : Nat → HttpResp) (mr : Nat) (msg k v : String),
      (k, v) ∈ u.query → isSecretKey k = true →
      http_request_bytes method u responses mr = .error msg →
      occursIn "REDACTED" msg = true) ∧
    ((exceptErrorText (http_request_json "get" c6url c6fail_empty 0)).map
        (occursIn "SECRET123") = some false ∧
     (exceptErrorText (http_request_json "get" c6url c6fail_empty 0)).map
        (occursIn "REDACTED") = some true ∧
     (exceptErrorText (http_request_json "get" c6url c6fail_notjson 0)).map
        (occursIn "SECRET123") = some false ∧
     (exceptErrorText (http_request_json "get" c6url c6fail_notjson 0)).map
        (occursIn "REDACTED") = some true) := by
  refine ⟨?_, ?_, ?_, ?_, ?_⟩
  · intro method u1 u2 responses mr h
    exact ⟨http_json_go_redact_congr method u1 u2 responses mr h mr 0,
           http_bytes_go_redact_congr method u1 u2 responses mr h mr 0⟩
  · intro u k v hkv hk
    exact ⟨redact_url_mem u k v hkv hk,
           occursIn_urlToString (redact_url u) k (redact_url_mem u k v hkv hk)⟩
  · intro method u responses mr msg k v hkv hk h
    exact http_json_go_error_contains method u responses mr k v hkv hk mr 0 msg h
  · intro method u responses mr msg k v hkv hk h
    exact http_bytes_go_error_contains method u responses mr k v hkv hk mr 0 msg h
  · exact ⟨by decide, by decide, by decide, by decide⟩

theorem C6_secret_redaction_witness :
    ("apiKey", "REDACTED") ∈ (redact_url c6url).query ∧
    occursIn "REDACTED" (urlToString (redact_url c6url)) = true :=
  C6_secret_redaction.2.1 c6url "apiKey" "SECRET123" (by decide) (by decide)

/-- The observable content of one cache file slot. -/
inductive FileContent
  | missing
  | ioError
  | invalidJson
  | jsonVal (j : Json)

/-- The cache directory: one slot per key. JsonDiskCache names files by the
sha256 of the key, which is injective on keys and therefore modelled away. -/
def CacheFS := String → FileContent

/-- A Python datetime value: naive (no tzinfo) or aware, carrying its
wall-clock reading as a UTC timestamp in seconds. -/
inductive PyDateTime
  | naive (t : ℤ)
  | aware (t : ℤ)
deriving DecidableEq, Repr

/-- replace(tzinfo=timezone.utc) on a naive datetime, identity on an aware
one: the UTC instant the cache code goes on to compute with. -/
def pyInstant : PyDateTime → ℤ
  | .naive t => t
  | .aware t => t

/-- The standard-library ISO-8601 codec, passed in explicitly: fmt is
datetime.isoformat on the aware UTC value _utcnow() produces, parse is
datetime.fromisoformat (none when a ValueError is raised). -/
structure IsoCodec where
  fmt : ℤ → String
  parse : String → Option PyDateTime

/-- Whether a decoded JSON value is an object. -/
def Json.isObj : Json → Bool
  | .obj _ => true
  | _ => false

/-- cache.JsonDiskCache.get. Every miss path returns none; the best-effort
unlink side effects on those paths touch only the slot already ruled
invalid and are not observed by any claim, so they are not modelled. -/
def cache_get (codec : IsoCodec) (fs : CacheFS) (now : ℤ) (key : String)
    (ttl_seconds : Option ℚ) : Option Json :=
  match fs key with
  | .missing => none
  | .ioError => none
  | .invalidJson => none
  | .jsonVal j =>
    match j with
    | .obj kvs =>
      match jsonGet kvs "created_at" with
      | some (.str s) =>
        if pyStrip s = "" then none
        else
          match codec.parse (pyStrip s) with
          | none => none
          | some dt =>
            let created_at := pyInstant dt
            match ttl_seconds with
            | some ttl =>
              let age_seconds : ℚ := max 0 (((now - created_at : ℤ) : ℚ))
              if ttl < age_seconds then none
              else jsonGet kvs "value"
            | none => jsonGet kvs "value"
      | _ => none
    | _ => none

/-- cache.JsonDiskCache.set: serialize to a temporary file and atomically
rename over the destination; when the write raises OSError the temporary
file is discarded and the store is unchanged (the error is swallowed). -/
def cache_set (codec : IsoCodec) (fs : CacheFS) (now : ℤ) (key : String) (value : Json)
    (write_ok : Bool) : CacheFS :=
  if write_ok then
    fun p => if p = key then
      .jsonVal (.obj [("created_at", .str (codec.fmt now)), ("value", value)])
    else fs p
  else fs

/-- C7: JsonDiskCache.get is a total function returning absent (none) on a
missing file, an I/O error, invalid JSON, a non-object payload, a missing,
non-string, blank or unparsable created_at, and on expiry; a naive
created_at is interpreted exactly like the aware UTC datetime with the same
reading; and JsonDiskCache.set on an I/O failure swallows the error and
leaves the store unchanged. -/
theorem C7_cache_get_never_raises :
    (∀ codec fs now key ttl, fs key = .missing → cache_get codec fs now key ttl = none) ∧
    (∀ codec fs now key ttl, fs key = .ioError → cache_get codec fs now key ttl = none) ∧
    (∀ codec fs now key ttl, fs key = .invalidJson → cache_get codec fs now key ttl = none) ∧
    (∀ codec fs now key ttl j, fs key = .jsonVal j → j.isObj = false →
      cache_get codec fs now key ttl = none) ∧
    (∀ codec fs now key ttl kvs, fs key = .jsonVal (.obj kvs) →
      (∀ s, jsonGet kvs "created_at" ≠ some (.str s)) →
      cache_get codec fs now key ttl = none) ∧
    (∀ codec fs now key ttl kvs s, fs key = .jsonVal (.obj kvs) →
      jsonGet kvs "created_at" = some (.str s) → pyStrip s = "" →
      cache_get codec fs now key ttl = none) ∧
    (∀ (codec : IsoCodec) fs now key ttl kvs s, fs key = .jsonVal (.obj kvs) →
      jsonGet kvs "created_at" = some (.str s) → pyStrip s ≠ "" →
      codec.parse (pyStrip s) = none →
      cache_get codec fs now key ttl = none) ∧
    (∀ (codec : IsoCodec) fs now key (ttl : ℚ) kvs s dt, fs key = .jsonVal (.obj kvs) →
      jsonGet kvs "created_at" = some (.str s) → pyStrip s ≠ "" →
      codec.parse (pyStrip s) = some dt →
      ttl < max 0 (((now - pyInstant dt : ℤ) : ℚ)) →
      cache_get codec fs now key (some ttl) = none) ∧
    (∀ (c1 c2 : IsoCodec) fs now key ttl kvs s w, fs key = .jsonVal (.obj kvs) →
      jsonGet kvs "created_at" = some (.str s) →
      c1.parse (pyStrip s) = some (.naive w) → c2.parse (pyStrip s) = some (.aware w) →
      cache_get c1 fs now key ttl = cache_get c2 fs now key ttl) ∧
    (∀ codec fs now key value, cache_set codec fs now key value false = fs) := by
  refine ⟨?_, ?_, ?_, ?_, ?_, ?_, ?_, ?_, ?_, ?_⟩
  · intro codec fs now key ttl h
    simp [cache_get, h]
  · intro codec fs now key ttl h
    simp [cache_get, h]
  · intro codec fs now key ttl h
    simp [cache_get, h]
  · intro codec fs now key ttl j hkey hobj
    cases j <;> simp_all [cache_get, Json.isObj]
  · intro codec fs now key ttl kvs hkey hcr
    cases hc : jsonGet kvs "created_at" with
    | none => simp [cache_get, hkey, hc]
    | some j => cases j <;> simp_all [cache_get, hkey]
  · intro codec fs now key ttl kvs s hkey hcr hblank
    simp [cache_get, hkey, hcr, hblank]
  · intro codec fs now key ttl kvs s hkey hcr hblank hparse
    simp [cache_get, hkey, hcr, hblank, hparse]
  · intro codec fs now key ttl kvs s dt hkey hcr hblank hparse hexp
    simp only [cache_get, hkey, hcr, hparse]
    rw [if_neg hblank]
    show (if ttl < max 0 (((now - pyInstant dt : ℤ) : ℚ)) then none
          else jsonGet kvs "value") = none
    rw [if_pos hexp]
  · intro c1 c2 fs now key ttl kvs s w hkey hcr h1 h2
    by_cases hblank : pyStrip s = ""
    · simp [cache_get, hkey, hcr, hblank]
    · simp [cache_get, hkey, hcr, hblank, h1, h2, pyInstant]
  · intro codec fs now key value
    rfl

/-- C8: after a successful set(k, v), a get(k) with the TTL omitted or larger
than the entry's age returns v unchanged, provided the standard library's
datetime codec round-trips the stored created_at (isoformat output is
nonblank and fromisoformat returns the same aware instant). -/
theorem C8_cache_round_trip (codec : IsoCodec) (fs : CacheFS) (now1 now2 : ℤ)
    (key : String) (v : Json) (ttl : Option ℚ)
    (hfmt : pyStrip (codec.fmt now1) ≠ "")
    (hcodec : codec.parse (pyStrip (codec.fmt now1)) = some (.aware now1))
    (httl : ttl = none ∨ ∃ τ, ttl = some τ ∧ max 0 (((now2 - now1 : ℤ) : ℚ)) < τ) :
    cache_get codec (cache_set codec fs now1 key v true) now2 key ttl = some v := by
  have hslot : cache_set codec fs now1 key v true key =
      .jsonVal (.obj [("created_at", .str (codec.fmt now1)), ("value", v)]) := by
    simp [cache_set]
  have h1 : jsonGet [("created_at", Json.str (codec.fmt now1)), ("value", v)] "created_at" =
      some (.str (codec.fmt now1)) := rfl
  have h2 : jsonGet [("created_at", Json.str (codec.fmt now1)), ("value", v)] "value" =
      some v := rfl
  rcases httl with rfl | ⟨τ, rfl, hage⟩
  · simp [cache_get, hslot, h1, hfmt, hcodec, pyInstant, h2]
  · simp only [cache_get, hslot, h1, hfmt, hcodec, pyInstant, h2]
    simp [hfmt]
    constructor
    · exact le_of_lt (lt_of_le_of_lt le_sup_left hage)
    · have h3 : ((now2 - now1 : ℤ) : ℚ) < τ := lt_of_le_of_lt le_sup_right hage
      push_cast at h3
      linarith

/-- The toy codec of the concrete cache round-trip scenario. -/
def c8codec : IsoCodec :=
  ⟨fun t => "T" ++ toString t, fun s => if s = "T0" then some (.aware 0) else none⟩

theorem C8_cache_round_trip_witness :
    cache_get c8codec (cache_set c8codec (fun _ => .missing) 0 "k" (.str "x") true) 0 "k" none =
      some (.str "x") :=
  C8_cache_round_trip c8codec (fun _ => .missing) 0 0 "k" (.str "x") none
    (by decide) (by decide) (Or.inl rfl)

theorem C7_cache_get_never_raises_witness :
    cache_get c8codec (fun _ => .missing) 0 "k" none = none ∧
    cache_get c8codec (fun _ => .invalidJson) 0 "k" (some 60) = none :=
  ⟨C7_cache_get_never_raises.1 c8codec (fun _ => .missing) 0 "k" none rfl,
   C7_cache_get_never_raises.2.2.1 c8codec (fun _ => .invalidJson) 0 "k" (some 60) rfl⟩

/-- One RSS item after XML parsing: findtext results for each child tag. -/
structure RssItem where
  title : Option String := none
  link : Option String := none
  description : Option String := none
  source : Option String := none
  pubDate : Option String := none
deriving DecidableEq, Repr

/-- google_rss._parse_pubdate: the RFC-2822 parser parsedate_to_datetime is
passed in explicitly (none models TypeError or ValueError); a naive result is
interpreted as UTC. -/
def parse_pubdate (rfc : String → Option PyDateTime) (value : Option String) : Option ℤ :=
  match value with
  | some s => if pyStrip s = "" then none else (rfc (pyStrip s)).map pyInstant
  | none => none

/-- The tag-stripping state machine for the regex sub of <[^>]+> with the
empty string: the second argument is none outside a candidate tag and some
buf inside one, buf holding the reversed characters seen after the "<". A
"<>" pair and an unclosed "<" are left in place, as the regex leaves them. -/
def stripTagsGo : List Char → Option (List Char) → List Char
  | [], none => []
  | [], some buf => '<' :: buf.reverse
  | c :: rest, none =>
    if c = '<' then stripTagsGo rest (some []) else c :: stripTagsGo rest none
  | c :: rest, some buf =>
    if c = '>' then
      if buf.isEmpty then '<' :: '>' :: stripTagsGo rest none
      else stripTagsGo rest none
    else stripTagsGo rest (some (c :: buf))

/-- google_rss._TAG_RE.sub with the empty replacement. -/
def stripTags (s : String) : String := String.mk (stripTagsGo s.data none)

/-- google_rss._clean_html: strip tags, collapse whitespace, unescape HTML
entities (html.unescape passed in explicitly), strip. -/
def clean_html (unescape : String → String) (text : String) : String :=
  pyStrip (unescape (pyCollapseWs (stripTags text)))

/-- The rendering of str(published_at or "") used in the id hash input. -/
def pubString : Option ℤ → String
  | some t => "dt" ++ toString t
  | none => ""

/-- google_rss._stable_article_id: the sha256-prefix hash is injective on its
input and is modelled by the joined input string itself. -/
def stable_article_id (parts : List String) : String :=
  String.intercalate "|" (parts.map pyStrip)

/-- The body of the item loop of google_rss.fetch_google_news_rss: the
normalized article, or none when the item is skipped by the cutoff filter or
the empty-title-and-description filter. -/
def rss_article (unescape : String → String) (rfc : String → Option PyDateTime)
    (from_instant : Option ℤ) (item : RssItem) : Option NewsArticle :=
  let title := pyStrip (item.title.getD "")
  let link : Option String :=
    let l := pyStrip (item.link.getD "")
    if l = "" then none else some l
  let description := clean_html unescape (item.description.getD "")
  let source : Option String :=
    let s := pyStrip (item.source.getD "")
    if s = "" then none else some s
  let published_at := parse_pubdate rfc item.pubDate
  if (match from_instant, published_at with
      | some f, some p => decide (p < f)
      | _, _ => false) then none
  else if title = "" ∧ description = "" then none
  else
    some ⟨stable_article_id [link.getD "", title, pubString published_at],
          title, description, link, source, published_at⟩

/-- google_rss.fetch_google_news_rss after transport and XML parsing: the
item list stands for root.findall(".//item"); a naive from_datetime is
normalized to UTC. The HTTP fetch and the ParseError on malformed XML live
upstream of the part modelled here. -/
def fetch_google_news_rss (unescape : String → String) (rfc : String → Option PyDateTime)
    (items : List RssItem) (from_datetime : Option PyDateTime) : List NewsArticle :=
  items.filterMap (rss_article unescape rfc (from_datetime.map pyInstant))

/-- C9: with an aware cutoff instant, fetch_google_news_rss drops every item
whose parsed pubDate is strictly older than the cutoff (removing it changes
nothing), and keeps every item with a title or description whose parsed
pubDate is at or after the cutoff, emitting its normalized article in place. -/
theorem C9_rss_cutoff_filter (unescape : String → String) (rfc : String → Option PyDateTime)
    (items1 items2 : List RssItem) (item : RssItem) (f : ℤ) :
    (∀ p : ℤ, parse_pubdate rfc item.pubDate = some p → p < f →
      fetch_google_news_rss unescape rfc (items1 ++ item :: items2) (some (.aware f)) =
        fetch_google_news_rss unescape rfc (items1 ++ items2) (some (.aware f))) ∧
    (∀ p : ℤ, parse_pubdate rfc item.pubDate = some p → ¬ p < f →
      (pyStrip (item.title.getD "") ≠ "" ∨ clean_html unescape (item.description.getD "") ≠ "") →
      ∃ art, rss_article unescape rfc (some f) item = some art ∧
        fetch_google_news_rss unescape rfc (items1 ++ item :: items2) (some (.aware f)) =
          fetch_google_news_rss unescape rfc items1 (some (.aware f)) ++
            art :: fetch_google_news_rss unescape rfc items2 (some (.aware f)) ∧
        art.published_at = some p) := by
  constructor
  · intro p hp hpf
    have hnone : rss_article unescape rfc (some f) item = none := by
      simp [rss_article, hp, hpf]
    simp [fetch_google_news_rss, List.filterMap_append, List.filterMap_cons, pyInstant, hnone]
  · intro p hp hpf hne
    have hne2 : ¬ (pyStrip (item.title.getD "") = "" ∧
        clean_html unescape (item.description.getD "") = "") := by
      rcases hne with h | h <;> exact fun hc => h (by simp [hc.1, hc.2])
    cases hsome : rss_article unescape rfc (some f) item with
    | none =>
      exfalso
      simp [rss_article, hp, hpf, hne2] at hsome
    | some art =>
      refine ⟨art, rfl, ?_, ?_⟩
      · simp [fetch_google_news_rss, List.filterMap_append, List.filterMap_cons, pyInstant, hsome]
      · simp [rss_article, hp, hpf, hne2] at hsome
        rw [← hsome]

/-- C10: an item whose pubDate is missing, blank or unparsable is never
dropped by the cutoff filter: whenever it has a title or description its
normalized (undated) article appears in the output even when a cutoff is
supplied. -/
theorem C10_rss_undated_item_kept (unescape : String → String)
    (rfc : String → Option PyDateTime) (items1 items2 : List RssItem) (item : RssItem)
    (from_datetime : Option PyDateTime)
    (hp : parse_pubdate rfc item.pubDate = none)
    (hne : pyStrip (item.title.getD "") ≠ "" ∨
      clean_html unescape (item.description.getD "") ≠ "") :
    ∃ art, fetch_google_news_rss unescape rfc (items1 ++ item :: items2) from_datetime =
        fetch_google_news_rss unescape rfc items1 from_datetime ++
          art :: fetch_google_news_rss unescape rfc items2 from_datetime ∧
      art.published_at = none := by
  have hne2 : ¬ (pyStrip (item.title.getD "") = "" ∧
      clean_html unescape (item.description.getD "") = "") := by
    rcases hne with h | h <;> exact fun hc => h (by simp [hc.1, hc.2])
  cases hsome : rss_article unescape rfc (from_datetime.map pyInstant) item with
  | none =>
    exfalso
    cases from_datetime with
    | none => simp [rss_article, hp, hne2] at hsome
    | some dt => simp [rss_article, hp, hne2] at hsome
  | some art =>
    refine ⟨art, ?_, ?_⟩
    · simp [fetch_google_news_rss, List.filterMap_append, List.filterMap_cons, hsome]
    · cases from_datetime with
      | none =>
        simp [rss_article, hp, hne2] at hsome
        rw [← hsome]
      | some dt =>
        simp [rss_article, hp, hne2] at hsome
        rw [← hsome]

/-- The RFC-2822 parse oracle of the concrete RSS scenarios. -/
def c9rfc : String → Option PyDateTime := fun s =>
  if s = "old" then some (.aware 0) else if s = "new" then some (.aware 10) else none

/-- An item dated before the concrete cutoff. -/
def c9item_old : RssItem := ⟨some "T1", none, none, none, some "old"⟩

/-- An item dated after the concrete cutoff. -/
def c9item_new : RssItem := ⟨some "T2", none, none, none, some "new"⟩

/-- An undated item. -/
def c10item : RssItem := ⟨some "T3", none, none, none, none⟩

theorem C9_rss_cutoff_filter_witness :
    fetch_google_news_rss (fun s => s) c9rfc [c9item_old] (some (.aware 5)) =
      fetch_google_news_rss (fun s => s) c9rfc [] (some (.aware 5)) ∧
    ∃ art, rss_article (fun s => s) c9rfc (some 5) c9item_new = some art ∧
      fetch_google_news_rss (fun s => s) c9rfc [c9item_new] (some (.aware 5)) =
        fetch_google_news_rss (fun s => s) c9rfc [] (some (.aware 5)) ++
          art :: fetch_google_news_rss (fun s => s) c9rfc [] (some (.aware 5)) ∧
      art.published_at = some 10 :=
  ⟨(C9_rss_cutoff_filter (fun s => s) c9rfc [] [] c9item_old 5).1 0 (by decide) (by decide),
   (C9_rss_cutoff_filter (fun s => s) c9rfc [] [] c9item_new 5).2 10 (by decide) (by decide)
     (Or.inl (by decide))⟩

theorem C10_rss_undated_item_kept_witness :
    ∃ art, fetch_google_news_rss (fun s => s) c9rfc [c10item] (some (.aware 5)) =
        fetch_google_news_rss (fun s => s) c9rfc [] (some (.aware 5)) ++
          art :: fetch_google_news_rss (fun s => s) c9rfc [] (some (.aware 5)) ∧
      art.published_at = none :=
  C10_rss_undated_item_kept (fun s => s) c9rfc [] [] c10item (some (.aware 5))
    (by decide) (Or.inl (by decide))

end StockSentiment
